import Mathlib

/-!
Verification of the Ralph LRS statement-store engine: a shallow embedding of
the LRS backends (`ralph/backends/lrs/base.py`, `es.py`, `mongo.py`,
`couch.py`, `fs.py`, `async_es.py`, `async_mongo.py`) together with theorems
about voiding, query translation, pagination and the sync/async parity.
-/

namespace Ralph

/-! ## Base data model (`ralph/backends/lrs/base.py`)

Statements are generic keyed documents; the store keeps each statement next
to its `metadata` (`{voided: bool}`).  `rest` stands for all remaining
statement content that the store passes through untouched. -/

structure Verb where
  id : String
deriving Repr, DecidableEq

structure Statement where
  id : String
  verb : Verb
  rest : String
deriving Repr, DecidableEq

structure Metadata where
  voided : Bool
deriving Repr, DecidableEq

structure StoredRecord where
  statement : Statement
  metadata : Metadata
deriving Repr, DecidableEq

abbrev Store := List StoredRecord

/-- Modelled from the spec: `check_statement_is_voiding` (module
`ralph.models.xapi.base.statements`, which is not part of the sources at
hand): a voiding statement is a statement whose `verb.id` equals the
reserved voided verb `http://adlnet.gov/expapi/verbs/voided`. -/
def voidedVerbId : String := "http://adlnet.gov/expapi/verbs/voided"

def check_statement_is_voiding (s : Statement) : Bool :=
  s.verb.id == voidedVerbId

/-- Error taxonomy of `ralph.exceptions` as used by the LRS backends:
pydantic validation failures of the input adapters, the generic
`BackendException` and `BackendParameterException`. -/
inductive LRSError where
  | validationError
  | backendException (msg : String)
  | backendParameterException (msg : String)
deriving Repr, DecidableEq

/-- `query_statements_by_ids(ids, include_extra=True)`: every backend yields
the stored records whose statement `id` is among `ids` (e.g.
`FSLRSBackend.query_statements_by_ids` filters the scan on
`statement.get("id") in statement_ids`). -/
def query_statements_by_ids (store : Store) (ids : List String) : List StoredRecord :=
  store.filter (fun r => ids.contains r.statement.id)

/-- The dict comprehension keying fetched records by `statement["id"]`:
a Python dict keeps the last binding for a duplicated key. -/
def lastRecordWithId (recs : List StoredRecord) (i : String) : Option StoredRecord :=
  (recs.filter (fun r => r.statement.id == i)).getLast?

def msgNotFound (i : String) : String :=
  "StatementRef '" ++ i ++ "' of voiding Statement references a Statement that does not exist"

def msgVoiding (i : String) : String :=
  "StatementRef '" ++ i ++ "' of voiding Statement references another voiding Statement"

def msgVoided (i : String) : String :=
  "StatementRef '" ++ i ++ "' of voiding Statement references a Statement that has already been voided"

/-- `_check_voided_statements` (`base.py`): walk the requested ids, raise
`BackendException` on the first id that is unknown, references a voiding
statement, or references an already voided statement; otherwise collect the
fetched statements in request order. -/
def _check_voided_statements (withExtra : List StoredRecord) :
    List String → Except LRSError (List Statement)
  | [] => .ok []
  | i :: rest =>
    match lastRecordWithId withExtra i with
    | none => .error (.backendException (msgNotFound i))
    | some r =>
      if check_statement_is_voiding r.statement then
        .error (.backendException (msgVoiding i))
      else if r.metadata.voided then
        .error (.backendException (msgVoided r.statement.id))
      else
        (_check_voided_statements withExtra rest).map (r.statement :: ·)

inductive BaseOperationType where
  | create
  | update
  | delete
  | index
  | append
deriving Repr, DecidableEq

/-- A single call to the data backend `write` method: its `data`,
`metadata` and `operation_type` arguments. -/
structure WriteCall where
  data : List Statement
  metadata : Metadata
  operation_type : BaseOperationType
deriving Repr, DecidableEq

/-- `statements_ids_adapter = TypeAdapter(conlist(NonEmptyStr, min_length=1))`. -/
def validStatementsIds (ids : List String) : Bool :=
  !ids.isEmpty && ids.all (fun i => !i.isEmpty)

/-- `statements_adapter = TypeAdapter(conlist(dict, min_length=1))`. -/
def validStatements (stmts : List Statement) : Bool :=
  !stmts.isEmpty

/-- `BaseLRSBackend.void_statements` (`base.py`): validate the ids, fetch
the referenced records with extra metadata, run `_check_voided_statements`,
and finally issue one `UPDATE` write of the validated statements with
metadata `{voided: True}`.  The returned value is the write call issued on
success; any failure happens before the write. -/
def void_statements (store : Store) (ids : List String) : Except LRSError WriteCall :=
  if validStatementsIds ids then
    match _check_voided_statements (query_statements_by_ids store ids) ids with
    | .error e => .error e
    | .ok statements => .ok ⟨statements, ⟨true⟩, .update⟩
  else .error .validationError

/-- `BaseLRSBackend.index_statements` (`base.py`): validate the statements
and issue one `INDEX` write with metadata `{voided: False}`. -/
def index_statements (stmts : List Statement) : Except LRSError WriteCall :=
  if validStatements stmts then .ok ⟨stmts, ⟨false⟩, .index⟩
  else .error .validationError

/-- Modelled from the spec: the data backends implementing the `UPDATE`
operation (modules `ralph.backends.data.*`, not part of the sources at
hand) update, for each written statement, the stored record carrying the
same statement `id`: the record keeps its statement content and native
identity and receives the supplied metadata. -/
def applyUpdateWrite (store : Store) (w : WriteCall) : Store :=
  store.map fun r =>
    if w.data.any (fun s => s.id == r.statement.id) then { r with metadata := w.metadata }
    else r

/-- Running `void_statements` against a store: on error the store is
untouched (the failure is raised before the write call); on success the
`UPDATE` write is applied. -/
def void_statements_run (store : Store) (ids : List String) : Store :=
  match void_statements store ids with
  | .error _ => store
  | .ok w => applyUpdateWrite store w

/-- Specification-side mirror of the three voiding-chain violations for a
single referenced id, together with the error the code reports for it. -/
def voidingChainError (store : Store) (i : String) : Option LRSError :=
  match lastRecordWithId store i with
  | none => some (.backendException (msgNotFound i))
  | some r =>
    if check_statement_is_voiding r.statement then some (.backendException (msgVoiding i))
    else if r.metadata.voided then some (.backendException (msgVoided r.statement.id))
    else none

def isBackendParameterError : Except LRSError WriteCall → Bool
  | .error (.backendParameterException _) => true
  | _ => false

/-! ## Canonical query parameters (`base.py`)

`AgentParameters` and `RalphStatementsQuery`.  Optional string parameters
are `Option String`; Python truthiness (`if params.x:`) is `truthy`, false
for `None` and for the empty string. -/

structure AgentParameters where
  mbox : Option String := none
  mbox_sha1sum : Option String := none
  openid : Option String := none
  account__name : Option String := none
  account__home_page : Option String := none
deriving Repr, DecidableEq

/-- `RalphStatementsQuery` (`base.py`); the `format` and `attachments`
parameters are omitted: no translator reads them. -/
structure RalphStatementsQuery where
  statement_id : Option String := none
  voided_statement_id : Option String := none
  agent : Option AgentParameters := none
  verb : Option String := none
  activity : Option String := none
  registration : Option String := none
  related_activities : Bool := false
  related_agents : Bool := false
  since : Option String := none
  until_ : Option String := none
  limit : Nat := 0
  ascending : Bool := false
  search_after : Option String := none
  pit_id : Option String := none
  authority : Option AgentParameters := none
  ignore_order : Bool := false
deriving Repr, DecidableEq

/-- Python truthiness of an optional string: `None` and `""` are falsy. -/
def truthy : Option String → Bool
  | none => false
  | some s => !s.isEmpty

/-- Value of a truthy optional string. -/
def optVal (o : Option String) : String := o.getD ""

/-! ## Elasticsearch translator (`ralph/backends/lrs/es.py`) -/

inductive ESVal where
  | str (s : String)
  | bool (b : Bool)
  | null
deriving Repr, DecidableEq

def esOptVal : Option String → ESVal
  | none => .null
  | some s => .str s

inductive ESFilter where
  | term (field : String) (value : ESVal)
  | range (field : String) (op : String) (value : String)
deriving Repr, DecidableEq

inductive ESSort where
  | keys (ks : List (String × String))
  | raw (s : String)
deriving Repr, DecidableEq

structure ESQuery where
  pit_id : Option String
  size : Nat
  sort : ESSort
  query_filters : List ESFilter
  search_after : Option (List String)
deriving Repr, DecidableEq

/-- `ESLRSBackend._add_agent_filters`: an `if/elif` chain, so the first
truthy identifier contributes the only filter; the account branch adds a
name and a homePage term. -/
def es_add_agent_filters (ap : Option AgentParameters) (target_field : String) :
    List ESFilter :=
  match ap with
  | none => []
  | some a =>
    if truthy a.mbox then
      [.term ("statement." ++ target_field ++ ".mbox.keyword") (.str (optVal a.mbox))]
    else if truthy a.mbox_sha1sum then
      [.term ("statement." ++ target_field ++ ".mbox_sha1sum.keyword")
        (.str (optVal a.mbox_sha1sum))]
    else if truthy a.openid then
      [.term ("statement." ++ target_field ++ ".openid.keyword") (.str (optVal a.openid))]
    else if truthy a.account__name then
      [.term ("statement." ++ target_field ++ ".account.name.keyword")
        (.str (optVal a.account__name)),
       .term ("statement." ++ target_field ++ ".account.homePage.keyword")
        (esOptVal a.account__home_page)]
    else []

/-- `ESLRSBackend.get_query`. -/
def es_get_query (p : RalphStatementsQuery) : ESQuery :=
  let f0 : List ESFilter :=
    if truthy p.statement_id then
      [.term "_id" (.str (optVal p.statement_id)), .term "metadata.voided" (.bool false)]
    else if truthy p.voided_statement_id then
      [.term "_id" (.str (optVal p.voided_statement_id)),
       .term "metadata.voided" (.bool true)]
    else []
  let f1 := f0 ++ es_add_agent_filters p.agent "actor"
  let f2 := f1 ++ es_add_agent_filters p.authority "authority"
  let f3 := f2 ++
    (if truthy p.verb then [.term "statement.verb.id.keyword" (.str (optVal p.verb))]
     else [])
  let f4 := f3 ++
    (if truthy p.activity then
      [.term "statement.object.id.keyword" (.str (optVal p.activity))]
     else [])
  let f5 := f4 ++
    (if truthy p.since then [.range "statement.timestamp" "gt" (optVal p.since)] else [])
  let f6 := f5 ++
    (if truthy p.until_ then [.range "statement.timestamp" "lte" (optVal p.until_)] else [])
  { pit_id := p.pit_id
    size := p.limit
    sort :=
      if p.ignore_order then .raw "_shard_doc"
      else .keys [("statement.timestamp", if p.ascending then "asc" else "desc")]
    query_filters := f6
    search_after :=
      if truthy p.search_after then some ((optVal p.search_after).splitOn "|") else none }

/-! ## MongoDB translator (`ralph/backends/lrs/mongo.py`)

A Python `dict` is an insertion-ordered association list whose `update`
replaces an existing binding in place or appends a new one. -/

def dictUpdate {V : Type} (d : List (String × V)) (k : String) (v : V) :
    List (String × V) :=
  if d.any (fun kv => kv.1 == k) then
    d.map (fun kv => if kv.1 == k then (k, v) else kv)
  else d ++ [(k, v)]

def dictGet {V : Type} : List (String × V) → String → Option V
  | [], _ => none
  | kv :: rest, k => if kv.1 == k then some kv.2 else dictGet rest k

inductive MongoVal where
  | str (s : String)
  | bool (b : Bool)
  | null
  | range (ops : List (String × String))
  | oidCmp (op : String) (oid : String)
deriving Repr, DecidableEq

abbrev MongoFilters := List (String × MongoVal)

def mongoOptVal : Option String → MongoVal
  | none => .null
  | some s => .str s

inductive SortDirection where
  | asc
  | desc
deriving Repr, DecidableEq

structure MongoQuery where
  filter : MongoFilters
  limit : Nat
  sort : List (String × SortDirection)
deriving Repr, DecidableEq

/-- `MongoLRSBackend._add_agent_filters`: independent `if` statements, one
binding per truthy identifier; the account branch binds name and homePage. -/
def mongo_add_agent_filters (d : MongoFilters) (ap : Option AgentParameters)
    (target_field : String) : MongoFilters :=
  match ap with
  | none => d
  | some a =>
    let d1 :=
      if truthy a.mbox then
        dictUpdate d ("_source.statement." ++ target_field ++ ".mbox")
          (.str (optVal a.mbox))
      else d
    let d2 :=
      if truthy a.mbox_sha1sum then
        dictUpdate d1 ("_source.statement." ++ target_field ++ ".mbox_sha1sum")
          (.str (optVal a.mbox_sha1sum))
      else d1
    let d3 :=
      if truthy a.openid then
        dictUpdate d2 ("_source.statement." ++ target_field ++ ".openid")
          (.str (optVal a.openid))
      else d2
    if truthy a.account__name then
      dictUpdate
        (dictUpdate d3 ("_source.statement." ++ target_field ++ ".account.name")
          (.str (optVal a.account__name)))
        ("_source.statement." ++ target_field ++ ".account.homePage")
        (mongoOptVal a.account__home_page)
    else d3

/-- The `until` branch of `MongoLRSBackend.get_query` mutates the nested
range dict in place with the `$lte` bound. -/
def mongoRangeAdd (d : MongoFilters) (k : String) (op : String) (v : String) :
    MongoFilters :=
  d.map fun kv =>
    if kv.1 == k then
      (k, match kv.2 with
          | .range ops => .range (dictUpdate ops op v)
          | other => other)
    else kv

/-- `MongoLRSBackend.get_query`. -/
def mongo_get_query (p : RalphStatementsQuery) : MongoQuery :=
  let d0 : MongoFilters :=
    if truthy p.statement_id then
      [("_source.statement.id", .str (optVal p.statement_id)),
       ("_source.metadata.voided", .bool false)]
    else if truthy p.voided_statement_id then
      [("_source.statement.id", .str (optVal p.voided_statement_id)),
       ("_source.metadata.voided", .bool true)]
    else [("_source.metadata.voided", .bool false)]
  let d1 := mongo_add_agent_filters d0 p.agent "actor"
  let d2 := mongo_add_agent_filters d1 p.authority "authority"
  let d3 :=
    if truthy p.verb then dictUpdate d2 "_source.statement.verb.id" (.str (optVal p.verb))
    else d2
  let d4 :=
    if truthy p.activity then
      dictUpdate d3 "_source.statement.object.id" (.str (optVal p.activity))
    else d3
  let d5 :=
    if truthy p.since then
      dictUpdate d4 "_source.statement.timestamp" (.range [("$gt", optVal p.since)])
    else d4
  let d6 :=
    if truthy p.until_ then
      let base :=
        if !truthy p.since then dictUpdate d5 "_source.statement.timestamp" (.range [])
        else d5
      mongoRangeAdd base "_source.statement.timestamp" "$lte" (optVal p.until_)
    else d5
  let d7 :=
    if truthy p.search_after then
      dictUpdate d6 "_id"
        (.oidCmp (if p.ascending then "$gt" else "$lt") (optVal p.search_after))
    else d6
  let dir := if p.ascending then SortDirection.asc else SortDirection.desc
  { filter := d7
    limit := p.limit
    sort := [("_source.statement.timestamp", dir), ("_id", dir)] }

/-! ## CouchDB translator (`ralph/backends/lrs/couch.py`) -/

structure CouchQuery where
  filter : MongoFilters
  limit : Nat
  sort : List (String × SortDirection)
  bookmark : Option String
deriving Repr, DecidableEq

/-- `CouchLRSBackend._add_agent_filters`: independent `if` statements over
`source.*` keys. -/
def couch_add_agent_filters (d : MongoFilters) (ap : Option AgentParameters)
    (target_field : String) : MongoFilters :=
  match ap with
  | none => d
  | some a =>
    let d1 :=
      if truthy a.mbox then
        dictUpdate d ("source." ++ target_field ++ ".mbox") (.str (optVal a.mbox))
      else d
    let d2 :=
      if truthy a.mbox_sha1sum then
        dictUpdate d1 ("source." ++ target_field ++ ".mbox_sha1sum")
          (.str (optVal a.mbox_sha1sum))
      else d1
    let d3 :=
      if truthy a.openid then
        dictUpdate d2 ("source." ++ target_field ++ ".openid") (.str (optVal a.openid))
      else d2
    if truthy a.account__name then
      dictUpdate
        (dictUpdate d3 ("source." ++ target_field ++ ".account.name")
          (.str (optVal a.account__name)))
        ("source." ++ target_field ++ ".account.homePage")
        (mongoOptVal a.account__home_page)
    else d3

/-- `CouchLRSBackend.get_query`: note there is no `voided` filter and no
`voided_statement_id` branch at all. -/
def couch_get_query (p : RalphStatementsQuery) : CouchQuery :=
  let d0 : MongoFilters :=
    if truthy p.statement_id then [("source.id", .str (optVal p.statement_id))] else []
  let d1 := couch_add_agent_filters d0 p.agent "actor"
  let d2 := couch_add_agent_filters d1 p.authority "authority"
  let d3 :=
    if truthy p.verb then dictUpdate d2 "source.verb.id" (.str (optVal p.verb)) else d2
  let d4 :=
    if truthy p.activity then dictUpdate d3 "source.object.id" (.str (optVal p.activity))
    else d3
  let d5 :=
    if truthy p.since then
      dictUpdate d4 "source.timestamp" (.range [("$gt", optVal p.since)])
    else d4
  let d6 :=
    if truthy p.until_ then
      let base :=
        if !truthy p.since then dictUpdate d5 "source.timestamp" (.range []) else d5
      mongoRangeAdd base "source.timestamp" "$lte" (optVal p.until_)
    else d5
  let dir := if p.ascending then SortDirection.asc else SortDirection.desc
  { filter := d6
    limit := p.limit
    sort := [("source.timestamp", dir), ("_id", dir)]
    bookmark := if truthy p.search_after then p.search_after else none }

/-! ## Flat-file backend (`ralph/backends/lrs/fs.py`)

Stored lines are generic dicts; `SDoc` models a statement-shaped dict with
exactly the keys the fs filters access (`.get` of a missing key is `none`),
including the agent-shaped keys read when a dict is used as an agent by
`_get_related_agents`.  `object` may itself be a statement-shaped dict
(SubStatement). -/

structure AccountD where
  name : Option String := none
  homePage : Option String := none
deriving Repr, DecidableEq

structure AgentD where
  mbox : Option String := none
  mbox_sha1sum : Option String := none
  openid : Option String := none
  account : Option AccountD := none
deriving Repr, DecidableEq

/-- A value of `context.contextActivities`: a single activity dict or a
list of activity dicts (only their `id` key is read). -/
inductive CtxActVal where
  | one (id : Option String)
  | many (ids : List (Option String))
deriving Repr, DecidableEq

inductive SDoc : Type where
  | mk
    (id : Option String)
    (objectType : Option String)
    (timestamp : Option String)
    (verbId : Option String)
    (asAgent : AgentD)
    (actor : AgentD)
    (authority : AgentD)
    (instructor : AgentD)
    (team : AgentD)
    (registration : Option String)
    (contextActivities : List CtxActVal)
    (object : Option SDoc)

def SDoc.id : SDoc → Option String
  | .mk i _ _ _ _ _ _ _ _ _ _ _ => i

def SDoc.objectType : SDoc → Option String
  | .mk _ o _ _ _ _ _ _ _ _ _ _ => o

def SDoc.timestamp : SDoc → Option String
  | .mk _ _ t _ _ _ _ _ _ _ _ _ => t

def SDoc.verbId : SDoc → Option String
  | .mk _ _ _ v _ _ _ _ _ _ _ _ => v

def SDoc.asAgent : SDoc → AgentD
  | .mk _ _ _ _ a _ _ _ _ _ _ _ => a

def SDoc.actor : SDoc → AgentD
  | .mk _ _ _ _ _ a _ _ _ _ _ _ => a

def SDoc.authority : SDoc → AgentD
  | .mk _ _ _ _ _ _ a _ _ _ _ _ => a

def SDoc.instructor : SDoc → AgentD
  | .mk _ _ _ _ _ _ _ a _ _ _ _ => a

def SDoc.team : SDoc → AgentD
  | .mk _ _ _ _ _ _ _ _ a _ _ _ => a

def SDoc.registration : SDoc → Option String
  | .mk _ _ _ _ _ _ _ _ _ r _ _ => r

def SDoc.contextActivities : SDoc → List CtxActVal
  | .mk _ _ _ _ _ _ _ _ _ _ c _ => c

def SDoc.object : SDoc → Option SDoc
  | .mk _ _ _ _ _ _ _ _ _ _ _ o => o

/-- A line of the fs LRS file: a dict with a statement and its metadata. -/
structure FSItem where
  statement : SDoc
  metadata : Metadata

/-- The statement object dict read as an agent dict, empty when absent. -/
def objectAsAgent : Option SDoc → AgentD
  | none => {}
  | some o => o.asAgent

/-- `FSLRSBackend._get_related_agents`: actor, object, authority,
`context.instructor`, `context.team`. -/
def relatedAgentsOf (s : SDoc) : List AgentD :=
  [s.actor, objectAsAgent s.object, s.authority, s.instructor, s.team]

/-- `match_related_mbox`: any related agent matches, else recurse into a
SubStatement object. -/
def matchRelatedMbox (m : String) : SDoc → Bool
  | .mk _ _ _ _ _ actor authority instructor team _ _ obj =>
    ([actor, objectAsAgent obj, authority, instructor, team].any fun a => a.mbox == some m)
    ||
    (match obj with
     | some o => o.objectType == some "SubStatement" && matchRelatedMbox m o
     | none => false)

def matchRelatedSha1sum (h : String) : SDoc → Bool
  | .mk _ _ _ _ _ actor authority instructor team _ _ obj =>
    ([actor, objectAsAgent obj, authority, instructor, team].any
      fun a => a.mbox_sha1sum == some h)
    ||
    (match obj with
     | some o => o.objectType == some "SubStatement" && matchRelatedSha1sum h o
     | none => false)

def matchRelatedOpenid (oid : String) : SDoc → Bool
  | .mk _ _ _ _ _ actor authority instructor team _ _ obj =>
    ([actor, objectAsAgent obj, authority, instructor, team].any
      fun a => a.openid == some oid)
    ||
    (match obj with
     | some o => o.objectType == some "SubStatement" && matchRelatedOpenid oid o
     | none => false)

/-- `account.get("name") == name and account.get("homePage") == home_page`
where a missing account dict matches nothing. -/
def accountMatches (name homePage : String) (a : AgentD) : Bool :=
  match a.account with
  | none => false
  | some acc => acc.name == some name && acc.homePage == some homePage

def matchRelatedAccount (name homePage : String) : SDoc → Bool
  | .mk _ _ _ _ _ actor authority instructor team _ _ obj =>
    ([actor, objectAsAgent obj, authority, instructor, team].any
      (accountMatches name homePage))
    ||
    (match obj with
     | some o => o.objectType == some "SubStatement" && matchRelatedAccount name homePage o
     | none => false)

def ctxActHasId (objectId : String) : CtxActVal → Bool
  | .one i => i == some objectId
  | .many l => l.any (fun i => i == some objectId)

/-- `match_related_object_id`: the object id, any context activity id, else
recurse into a SubStatement object. -/
def matchRelatedObjectId (objectId : String) : SDoc → Bool
  | .mk _ _ _ _ _ _ _ _ _ _ ctxActs obj =>
    ((match obj with | some o => o.id | none => none) == some objectId)
    || ctxActs.any (ctxActHasId objectId)
    ||
    (match obj with
     | some o => o.objectType == some "SubStatement" && matchRelatedObjectId objectId o
     | none => false)

/-- The two agent positions a non-related filter can target. -/
inductive AgentField where
  | actor
  | authority
deriving Repr, DecidableEq

def agentOf : AgentField → SDoc → AgentD
  | .actor, s => s.actor
  | .authority, s => s.authority

def match_statement_id (sid : String) (item : FSItem) : Bool :=
  item.statement.id == some sid && !item.metadata.voided

def match_voided_statement_id (sid : String) (item : FSItem) : Bool :=
  item.statement.id == some sid && item.metadata.voided

def match_mbox (field : AgentField) (m : String) (item : FSItem) : Bool :=
  (agentOf field item.statement).mbox == some m

def match_sha1sum (field : AgentField) (h : String) (item : FSItem) : Bool :=
  (agentOf field item.statement).mbox_sha1sum == some h

def match_openid (field : AgentField) (oid : String) (item : FSItem) : Bool :=
  (agentOf field item.statement).openid == some oid

def match_account (field : AgentField) (name homePage : String) (item : FSItem) : Bool :=
  accountMatches name homePage (agentOf field item.statement)

def match_verb_id (v : String) (item : FSItem) : Bool :=
  item.statement.verbId == some v

def match_object_id (oid : String) (item : FSItem) : Bool :=
  (match item.statement.object with | some o => o.id | none => none) == some oid

def match_registration (reg : String) (item : FSItem) : Bool :=
  item.statement.registration == some reg

/-- `match_since`: parse the record timestamp with
`datetime.fromisoformat`; a missing timestamp (TypeError) or an unparsable
one (ValueError) yields `False`; otherwise strictly greater than the bound.
The parser is a parameter of the embedding. -/
def match_since (parse : String → Option Int) (bound : Int) (item : FSItem) : Bool :=
  match item.statement.timestamp with
  | none => false
  | some ts =>
    match parse ts with
    | none => false
    | some t => bound < t

/-- `match_until`: as `match_since` with less-or-equal. -/
def match_until (parse : String → Option Int) (bound : Int) (item : FSItem) : Bool :=
  match item.statement.timestamp with
  | none => false
  | some ts =>
    match parse ts with
    | none => false
    | some t => t ≤ bound

abbrev FSFilters := List (FSItem → Bool)

def fs_add_filter_by_id (filters : FSFilters) (sid : Option String) : FSFilters :=
  if truthy sid then filters ++ [match_statement_id (optVal sid)] else filters

def fs_add_filter_by_voided_id (filters : FSFilters) (sid : Option String) : FSFilters :=
  if truthy sid then filters ++ [match_voided_statement_id (optVal sid)] else filters

def fs_add_filter_by_mbox (filters : FSFilters) (mbox : Option String) (related : Bool)
    (field : AgentField) : FSFilters :=
  if truthy mbox then
    filters ++
      [if related then fun item => matchRelatedMbox (optVal mbox) item.statement
       else match_mbox field (optVal mbox)]
  else filters

def fs_add_filter_by_sha1sum (filters : FSFilters) (sha1sum : Option String)
    (related : Bool) (field : AgentField) : FSFilters :=
  if truthy sha1sum then
    filters ++
      [if related then fun item => matchRelatedSha1sum (optVal sha1sum) item.statement
       else match_sha1sum field (optVal sha1sum)]
  else filters

def fs_add_filter_by_openid (filters : FSFilters) (openid : Option String)
    (related : Bool) (field : AgentField) : FSFilters :=
  if truthy openid then
    filters ++
      [if related then fun item => matchRelatedOpenid (optVal openid) item.statement
       else match_openid field (optVal openid)]
  else filters

/-- `_add_filter_by_account` appends its filter only when both the name and
the home page are truthy. -/
def fs_add_filter_by_account (filters : FSFilters) (name homePage : Option String)
    (related : Bool) (field : AgentField) : FSFilters :=
  if truthy name && truthy homePage then
    filters ++
      [if related then
        fun item => matchRelatedAccount (optVal name) (optVal homePage) item.statement
       else match_account field (optVal name) (optVal homePage)]
  else filters

def fs_add_filter_by_agent (filters : FSFilters) (agent : Option AgentParameters)
    (related : Bool) : FSFilters :=
  match agent with
  | none => filters
  | some a =>
    let f1 := fs_add_filter_by_mbox filters a.mbox related .actor
    let f2 := fs_add_filter_by_sha1sum f1 a.mbox_sha1sum related .actor
    let f3 := fs_add_filter_by_openid f2 a.openid related .actor
    fs_add_filter_by_account f3 a.account__name a.account__home_page related .actor

def fs_add_filter_by_authority (filters : FSFilters)
    (authority : Option AgentParameters) : FSFilters :=
  match authority with
  | none => filters
  | some a =>
    let f1 := fs_add_filter_by_mbox filters a.mbox false .authority
    let f2 := fs_add_filter_by_sha1sum f1 a.mbox_sha1sum false .authority
    let f3 := fs_add_filter_by_openid f2 a.openid false .authority
    fs_add_filter_by_account f3 a.account__name a.account__home_page false .authority

def fs_add_filter_by_verb (filters : FSFilters) (verb : Option String) : FSFilters :=
  if truthy verb then filters ++ [match_verb_id (optVal verb)] else filters

def fs_add_filter_by_activity (filters : FSFilters) (activity : Option String)
    (related : Bool) : FSFilters :=
  if truthy activity then
    filters ++
      [if related then fun item => matchRelatedObjectId (optVal activity) item.statement
       else match_object_id (optVal activity)]
  else filters

/-- `_add_filter_by_registration`: appended whenever a registration UUID is
present (a UUID object is always truthy). -/
def fs_add_filter_by_registration (filters : FSFilters) (reg : Option String) :
    FSFilters :=
  match reg with
  | none => filters
  | some r => filters ++ [match_registration r]

/-- `_add_filter_by_timestamp_since`: the bound itself is parsed outside
the closure.  Validated queries always carry a parsable bound; an
unparsable bound would raise before installing any filter, so that branch
installs nothing. -/
def fs_add_filter_by_timestamp_since (parse : String → Option Int) (filters : FSFilters)
    (since : Option String) : FSFilters :=
  match since with
  | none => filters
  | some s =>
    match parse s with
    | some b => filters ++ [match_since parse b]
    | none => filters

def fs_add_filter_by_timestamp_until (parse : String → Option Int) (filters : FSFilters)
    (until_ : Option String) : FSFilters :=
  match until_ with
  | none => filters
  | some s =>
    match parse s with
    | some b => filters ++ [match_until parse b]
    | none => filters

/-- The filter list `FSLRSBackend.query_statements` builds, in source
order; the stateful `search_after` filter is appended last and is modelled
by the scan loop below. -/
def fs_build_filters (parse : String → Option Int) (p : RalphStatementsQuery) :
    FSFilters :=
  let f0 : FSFilters := []
  let f0 :=
    if truthy p.statement_id then fs_add_filter_by_id f0 p.statement_id
    else if truthy p.voided_statement_id then
      fs_add_filter_by_voided_id f0 p.voided_statement_id
    else f0
  let f1 := fs_add_filter_by_agent f0 p.agent p.related_agents
  let f2 := fs_add_filter_by_authority f1 p.authority
  let f3 := fs_add_filter_by_verb f2 p.verb
  let f4 := fs_add_filter_by_activity f3 p.activity p.related_activities
  let f5 := fs_add_filter_by_registration f4 p.registration
  let f6 := fs_add_filter_by_timestamp_since parse f5 p.since
  fs_add_filter_by_timestamp_until parse f6 p.until_

/-- The record loop of `FSLRSBackend.query_statements`: filters are
evaluated in order with short circuit, the stateful `search_after` filter
coming last (`seen` is its captured state); on reaching a non-zero limit
the cursor is the id of the statement just appended. -/
def fs_scan (pfs : FSFilters) (sa : Option String) (limit : Nat)
    (seen : Bool) (count : Nat) : List FSItem → List SDoc × Option String
  | [] => ([], none)
  | item :: rest =>
    if pfs.all (fun f => f item) then
      match sa, seen with
      | some target, false =>
        fs_scan pfs sa limit (item.statement.id == some target) count rest
      | _, _ =>
        let count1 := count + 1
        if limit != 0 && count1 == limit then
          ([item.statement], item.statement.id)
        else
          let r := fs_scan pfs sa limit seen count1 rest
          (item.statement :: r.1, r.2)
    else
      fs_scan pfs sa limit seen count rest

structure FSQueryResult where
  statements : List SDoc
  search_after : Option String

/-- `FSLRSBackend.query_statements` over the scanned records: build the
filters, run the loop, and reverse the page when `ascending`. -/
def fs_query_statements (parse : String → Option Int) (p : RalphStatementsQuery)
    (items : List FSItem) : FSQueryResult :=
  let fls := fs_build_filters parse p
  let sa := if truthy p.search_after then some (optVal p.search_after) else none
  let r := fs_scan fls sa p.limit false 0 items
  { statements := if p.ascending then r.1.reverse else r.1
    search_after := r.2 }

/-! ## Sync/async `query_statements` assembly (`es.py`, `async_es.py`,
`mongo.py`, `async_mongo.py`)

The backend read is abstracted as the list of documents it yields; each
flavor builds its native query with `get_query` and assembles the
`StatementQueryResult` from the documents. -/

structure QueryResultS where
  statements : List Statement
  pit_id : Option String
  search_after : Option String
deriving Repr, DecidableEq

/-- An Elasticsearch hit `_source`: the stored statement and metadata. -/
structure ESDocument where
  statement : Statement
  metadata : Metadata
deriving Repr, DecidableEq

/-- A MongoDB document: native `_id` plus the `_source` record. -/
structure MongoDocument where
  mongoId : String
  statement : Statement
  metadata : Metadata
deriving Repr, DecidableEq

/-- `ESLRSBackend.query_statements` (`es.py`): the native query issued to
`read` and the assembled result. -/
def es_query_statements (p : RalphStatementsQuery) (docs : List ESDocument) :
    ESQuery × QueryResultS :=
  let query := es_get_query p
  (query,
   { statements := docs.map (fun d => d.statement)
     pit_id := query.pit_id
     search_after :=
       some (match query.search_after with
             | some parts => String.intercalate "|" parts
             | none => "") })

/-- `AsyncESLRSBackend.query_statements` (`async_es.py`): it calls
`ESLRSBackend.get_query` and assembles the result the same way, the async
iteration only changing the suspension mechanism. -/
def async_es_query_statements (p : RalphStatementsQuery) (docs : List ESDocument) :
    ESQuery × QueryResultS :=
  let query := es_get_query p
  (query,
   { statements := docs.map (fun d => d.statement)
     pit_id := query.pit_id
     search_after :=
       some (match query.search_after with
             | some parts => String.intercalate "|" parts
             | none => "") })

/-- `MongoLRSBackend.query_statements` (`mongo.py`). -/
def mongo_query_statements (p : RalphStatementsQuery) (docs : List MongoDocument) :
    MongoQuery × QueryResultS :=
  let query := mongo_get_query p
  (query,
   { statements := docs.map (fun d => d.statement)
     pit_id := none
     search_after := (docs.getLast?).map (fun d => d.mongoId) })

/-- `AsyncMongoLRSBackend.query_statements` (`async_mongo.py`): it calls
`MongoLRSBackend.get_query` and assembles the result the same way. -/
def async_mongo_query_statements (p : RalphStatementsQuery) (docs : List MongoDocument) :
    MongoQuery × QueryResultS :=
  let query := mongo_get_query p
  (query,
   { statements := docs.map (fun d => d.statement)
     pit_id := none
     search_after := (docs.getLast?).map (fun d => d.mongoId) })

/-! ## Specification-side combinators for the fs scan -/

def passesAll (pfs : FSFilters) (item : FSItem) : Bool :=
  pfs.all (fun f => f item)

/-- The records of the scan that match every installed pure filter. -/
def matchedItems (pfs : FSFilters) (items : List FSItem) : List FSItem :=
  items.filter (passesAll pfs)

/-- Everything strictly after the first record carrying the cursor id;
empty when the id never occurs. -/
def afterFirstWithId (target : String) : List FSItem → List FSItem
  | [] => []
  | item :: rest =>
    if item.statement.id == some target then rest
    else afterFirstWithId target rest

/-- One result page: everything when `limit` is zero or never reached;
otherwise the first `limit` records together with the id of the last of
them as cursor. -/
def pageOf (limit : Nat) (l : List FSItem) : List SDoc × Option String :=
  if limit = 0 ∨ l.length < limit then (l.map (fun it => it.statement), none)
  else
    ((l.take limit).map (fun it => it.statement),
     (l.get? (limit - 1)).bind (fun it => it.statement.id))

/-- The records the scan of `fs_query_statements` pages through: the
matching records, resumed strictly after the cursor when one is given. -/
def effItems (parse : String → Option Int) (p : RalphStatementsQuery)
    (items : List FSItem) : List FSItem :=
  if truthy p.search_after then
    afterFirstWithId (optVal p.search_after) (matchedItems (fs_build_filters parse p) items)
  else matchedItems (fs_build_filters parse p) items

/-! ## Helper lemmas: voiding chain -/

theorem lastRecordWithId_query_eq (store : Store) (ids : List String) (i : String)
    (h : i ∈ ids) :
    lastRecordWithId (query_statements_by_ids store ids) i = lastRecordWithId store i := by
  unfold lastRecordWithId query_statements_by_ids
  rw [List.filter_filter]
  congr 1
  apply List.filter_congr
  intro r _
  by_cases hid : r.statement.id = i
  · simp [hid, h]
  · simp [hid]

theorem voidingChainError_backendException (store : Store) (i : String) (e : LRSError)
    (h : voidingChainError store i = some e) : ∃ msg, e = .backendException msg := by
  unfold voidingChainError at h
  rcases hx : lastRecordWithId store i with _ | r
  · rw [hx] at h
    exact ⟨msgNotFound i, by simpa using h.symm⟩
  · rw [hx] at h
    by_cases hv : check_statement_is_voiding r.statement
    · simp [hv] at h
      exact ⟨msgVoiding i, h.symm⟩
    · by_cases hm : r.metadata.voided
      · simp [hv, hm] at h
        exact ⟨msgVoided r.statement.id, h.symm⟩
      · simp [hv, hm] at h

theorem check_error_of_violation (store : Store) (withExtra : List StoredRecord) :
    ∀ rest : List String,
    (∀ i ∈ rest, lastRecordWithId withExtra i = lastRecordWithId store i) →
    (∃ i ∈ rest, (voidingChainError store i).isSome) →
    ∃ j ∈ rest, ∃ e, voidingChainError store j = some e ∧
      _check_voided_statements withExtra rest = .error e
  | [], _, hviol => by simp at hviol
  | i :: rest, hlook, hviol => by
    have hi : lastRecordWithId withExtra i = lastRecordWithId store i :=
      hlook i (by simp)
    rcases hx : lastRecordWithId store i with _ | r
    · refine ⟨i, by simp, .backendException (msgNotFound i), ?_, ?_⟩
      · simp [voidingChainError, hx]
      · simp [_check_voided_statements, hi, hx]
    · by_cases hv : check_statement_is_voiding r.statement
      · refine ⟨i, by simp, .backendException (msgVoiding i), ?_, ?_⟩
        · simp [voidingChainError, hx, hv]
        · simp [_check_voided_statements, hi, hx, hv]
      · by_cases hm : r.metadata.voided
        · refine ⟨i, by simp, .backendException (msgVoided r.statement.id), ?_, ?_⟩
          · simp [voidingChainError, hx, hv, hm]
          · simp [_check_voided_statements, hi, hx, hv, hm]
        · have hnone : voidingChainError store i = none := by
            simp [voidingChainError, hx, hv, hm]
          have hrest : ∃ j ∈ rest, (voidingChainError store j).isSome := by
            rcases hviol with ⟨j, hjmem, hjs⟩
            rcases List.mem_cons.mp hjmem with hji | hjr
            · subst hji
              rw [hnone] at hjs
              simp at hjs
            · exact ⟨j, hjr, hjs⟩
          rcases check_error_of_violation store withExtra rest
              (fun k hk => hlook k (by simp [hk])) hrest with ⟨j, hjmem, e, he, hch⟩
          refine ⟨j, by simp [hjmem], e, he, ?_⟩
          simp [_check_voided_statements, hi, hx, hv, hm, hch, Except.map]

/-! ## Claim theorems: voiding error handling -/

/-- C1 (amended): if any referenced statement id of a voiding submission
does not exist, references a voiding statement, or is already voided, then
`void_statements` fails with the generic `BackendException` reported by
`_check_voided_statements` for some offending id of the batch (the message
carries that id), and no write is issued: the store is unchanged. -/
theorem void_statements_chain_violation_aborts (store : Store) (ids : List String)
    (hvalid : validStatementsIds ids = true)
    (hviol : ∃ i ∈ ids, (voidingChainError store i).isSome) :
    (∃ j ∈ ids, ∃ e, voidingChainError store j = some e ∧
      (∃ msg, e = .backendException msg) ∧
      void_statements store ids = .error e) ∧
    void_statements_run store ids = store := by
  rcases check_error_of_violation store (query_statements_by_ids store ids) ids
      (fun i hi => lastRecordWithId_query_eq store ids i hi) hviol with
    ⟨j, hjmem, e, he, hch⟩
  have hvs : void_statements store ids = .error e := by
    simp [void_statements, hvalid, hch]
  refine ⟨⟨j, hjmem, e, he, voidingChainError_backendException store j e he, hvs⟩, ?_⟩
  simp [void_statements_run, hvs]

/-- C1 witness: voiding the unknown id "a" against the empty store. -/
theorem void_statements_chain_violation_aborts_witness :
    (validStatementsIds ["a"] = true) ∧
    ((∃ j ∈ ["a"], ∃ e, voidingChainError ([] : Store) j = some e ∧
        (∃ msg, e = .backendException msg) ∧
        void_statements [] ["a"] = .error e) ∧
      void_statements_run [] ["a"] = []) :=
  ⟨rfl, void_statements_chain_violation_aborts [] ["a"] rfl ⟨"a", by simp, rfl⟩⟩

/-- C1 counterexample: the failure is the generic `BackendException`, not
`BackendParameterException` as the claim states. -/
theorem void_statements_error_not_parameter_error :
    void_statements [] ["a"] = .error (.backendException (msgNotFound "a")) ∧
    isBackendParameterError (void_statements [] ["a"]) = false :=
  ⟨rfl, rfl⟩

/-- C9: `index_statements` and `void_statements` reject an empty input
sequence with a validation error before any write; the store is unchanged. -/
theorem empty_input_rejected :
    index_statements [] = .error .validationError ∧
    (∀ store : Store, void_statements store [] = .error .validationError) ∧
    (∀ store : Store, void_statements_run store [] = store) :=
  ⟨rfl, fun _ => rfl, fun _ => rfl⟩

/-- C8: the asynchronous Elasticsearch and MongoDB backends build the same
native query (both call the synchronous `get_query`) and assemble the
`StatementQueryResult` by the same rule as their synchronous counterparts:
on every query and every read outcome the results coincide. -/
theorem sync_async_query_parity :
    (∀ (p : RalphStatementsQuery) (docs : List ESDocument),
      async_es_query_statements p docs = es_query_statements p docs) ∧
    (∀ (p : RalphStatementsQuery) (docs : List MongoDocument),
      async_mongo_query_statements p docs = mongo_query_statements p docs) :=
  ⟨fun _ _ => rfl, fun _ _ => rfl⟩

theorem lookup_statement_id (recs : List StoredRecord) (i : String) (r : StoredRecord)
    (h : lastRecordWithId recs i = some r) : r.statement.id = i := by
  unfold lastRecordWithId at h
  have hmem := List.mem_of_getLast?_eq_some h
  have hp := (List.mem_filter.mp hmem).2
  simpa using hp

theorem check_ok_spec (withExtra : List StoredRecord) :
    ∀ (rest : List String) (stmts : List Statement),
    _check_voided_statements withExtra rest = .ok stmts →
    stmts = rest.filterMap
      (fun i => (lastRecordWithId withExtra i).map (fun r => r.statement)) ∧
    ∀ i ∈ rest, ∃ r, lastRecordWithId withExtra i = some r ∧
      check_statement_is_voiding r.statement = false ∧ r.metadata.voided = false
  | [], stmts, h => by
    simp [_check_voided_statements] at h
    subst h
    exact ⟨by simp, by simp⟩
  | i :: rest, stmts, h => by
    rcases hx : lastRecordWithId withExtra i with _ | r
    · simp [_check_voided_statements, hx] at h
    · by_cases hv : check_statement_is_voiding r.statement
      · simp [_check_voided_statements, hx, hv] at h
      · by_cases hm : r.metadata.voided
        · simp [_check_voided_statements, hx, hv, hm] at h
        · rcases hrec : _check_voided_statements withExtra rest with e | stmts0
          · rw [_check_voided_statements] at h
            rw [hx] at h
            simp [hv, hm, hrec, Except.map] at h
          · rw [_check_voided_statements] at h
            rw [hx] at h
            simp [hv, hm, hrec, Except.map] at h
            rcases check_ok_spec withExtra rest stmts0 hrec with ⟨hdata, hall⟩
            constructor
            · rw [← h, hdata]
              simp [List.filterMap_cons, hx]
            · intro k hk
              rcases List.mem_cons.mp hk with hki | hkr
              · subst hki
                exact ⟨r, hx, by simpa using hv, by simpa using hm⟩
              · exact hall k hkr

/-- C6: on every successful voiding submission, the single write issued is
an `UPDATE` of exactly the fetched stored statements (unchanged in
content, in submission order) with metadata voided set to true; the
resulting store keeps every statement intact and only flips the voided
flag of the records whose id was voided. -/
theorem void_statements_update_frame (store : Store) (ids : List String) (w : WriteCall)
    (h : void_statements store ids = .ok w) :
    w.operation_type = .update ∧
    w.metadata = ⟨true⟩ ∧
    w.data = ids.filterMap
      (fun i => (lastRecordWithId store i).map (fun r => r.statement)) ∧
    void_statements_run store ids =
      store.map (fun r =>
        if ids.contains r.statement.id then { r with metadata := ⟨true⟩ } else r) := by
  by_cases hvalid : validStatementsIds ids
  case neg => simp [void_statements, hvalid] at h
  rcases hch : _check_voided_statements (query_statements_by_ids store ids) ids with
    e | stmts
  · simp [void_statements, hvalid, hch] at h
  have hw : w = ⟨stmts, ⟨true⟩, .update⟩ := by
    have := h
    simp [void_statements, hvalid, hch] at this
    exact this.symm
  rcases check_ok_spec _ ids stmts hch with ⟨hdata, hall⟩
  have hdata2 : stmts = ids.filterMap
      (fun i => (lastRecordWithId store i).map (fun r => r.statement)) := by
    rw [hdata]
    apply List.filterMap_congr
    intro i hi
    rw [lastRecordWithId_query_eq store ids i hi]
  have hany : ∀ r : StoredRecord,
      (w.data.any fun s => s.id == r.statement.id) = ids.contains r.statement.id := by
    intro r
    rw [Bool.eq_iff_iff]
    constructor
    · intro hx
      rcases List.any_eq_true.mp hx with ⟨s, hs, hbeq⟩
      rw [hw] at hs
      rw [hdata2] at hs
      rcases List.mem_filterMap.mp hs with ⟨i, hiids, hmap⟩
      rcases Option.map_eq_some'.mp hmap with ⟨rec, hrec, hrs⟩
      have hsid : s.id = i := by
        rw [← hrs]
        exact lookup_statement_id store i rec hrec
      have heq : s.id = r.statement.id := by simpa using hbeq
      have : i = r.statement.id := by rw [← hsid, heq]
      subst this
      simpa using hiids
    · intro hx
      have hmem : r.statement.id ∈ ids := by simpa using hx
      rcases hall r.statement.id hmem with ⟨rec, hrec, _, _⟩
      have hrec2 : lastRecordWithId store r.statement.id = some rec := by
        rw [← lastRecordWithId_query_eq store ids _ hmem]
        exact hrec
      apply List.any_eq_true.mpr
      refine ⟨rec.statement, ?_, ?_⟩
      · rw [hw]
        rw [hdata2]
        apply List.mem_filterMap.mpr
        exact ⟨r.statement.id, hmem, by rw [hrec2]; rfl⟩
      · simp [lookup_statement_id store _ rec hrec2]
  have hrun : void_statements_run store ids = applyUpdateWrite store w := by
    simp [void_statements_run, h]
  refine ⟨by rw [hw], by rw [hw], by rw [hw]; exact hdata2, ?_⟩
  rw [hrun]
  unfold applyUpdateWrite
  apply List.map_congr_left
  intro r _
  rw [hany r, hw]

def sampleStatementA : Statement := ⟨"a", ⟨"v"⟩, "x"⟩

def sampleStoreA : Store := [⟨sampleStatementA, ⟨false⟩⟩]

def sampleWriteA : WriteCall := ⟨[sampleStatementA], ⟨true⟩, .update⟩

/-- C6 witness: voiding the single stored statement "a". -/
theorem void_statements_update_frame_witness :
    (void_statements sampleStoreA ["a"] = .ok sampleWriteA) ∧
    (sampleWriteA.operation_type = .update ∧
     sampleWriteA.metadata = ⟨true⟩ ∧
     sampleWriteA.data = ["a"].filterMap
       (fun i => (lastRecordWithId sampleStoreA i).map (fun r => r.statement)) ∧
     void_statements_run sampleStoreA ["a"] =
       sampleStoreA.map (fun r =>
         if ["a"].contains r.statement.id then { r with metadata := ⟨true⟩ } else r)) :=
  ⟨rfl, void_statements_update_frame sampleStoreA ["a"] sampleWriteA rfl⟩

/-! ## Helper lemmas: dict operations and filter extraction -/

theorem dictGet_map_update_ne {V : Type} (k1 k : String) (v : V) (h : k1 ≠ k) :
    ∀ d : List (String × V),
    dictGet (d.map (fun kv => if kv.1 == k1 then (k1, v) else kv)) k = dictGet d k
  | [] => rfl
  | kv :: rest => by
    have hf1 : ¬ (k1 == k) = true := by simp [h]
    by_cases hk1 : (kv.1 == k1) = true
    · have hkv1 : kv.1 = k1 := by simpa using hk1
      have hf2 : ¬ (kv.1 == k) = true := by simp [hkv1, h]
      rw [List.map_cons, if_pos hk1]
      simp only [dictGet]
      rw [if_neg hf1, if_neg hf2]
      exact dictGet_map_update_ne k1 k v h rest
    · rw [List.map_cons, if_neg hk1]
      simp only [dictGet]
      by_cases hk : (kv.1 == k) = true
      · rw [if_pos hk, if_pos hk]
      · rw [if_neg hk, if_neg hk]
        exact dictGet_map_update_ne k1 k v h rest

theorem dictGet_append_single_ne {V : Type} (k1 k : String) (v : V) (h : k1 ≠ k) :
    ∀ d : List (String × V), dictGet (d ++ [(k1, v)]) k = dictGet d k
  | [] => by simp [dictGet, h]
  | kv :: rest => by
    simp only [List.cons_append, dictGet]
    by_cases hk : (kv.1 == k) = true
    · rw [if_pos hk, if_pos hk]
    · rw [if_neg hk, if_neg hk]
      exact dictGet_append_single_ne k1 k v h rest

theorem dictGet_map_update_self {V : Type} (k : String) (v : V) :
    ∀ d : List (String × V), (d.any (fun kv => kv.1 == k)) = true →
    dictGet (d.map (fun kv => if kv.1 == k then (k, v) else kv)) k = some v
  | [], hmem => by simp at hmem
  | kv :: rest, hmem => by
    by_cases hk : (kv.1 == k) = true
    · rw [List.map_cons, if_pos hk]
      simp [dictGet]
    · have hrest : (rest.any (fun kv => kv.1 == k)) = true := by
        rcases List.any_eq_true.mp hmem with ⟨x, hx, hxk⟩
        rcases List.mem_cons.mp hx with h1 | h2
        · subst h1; simp [hxk] at hk
        · exact List.any_eq_true.mpr ⟨x, h2, hxk⟩
      rw [List.map_cons, if_neg hk]
      simp only [dictGet]
      rw [if_neg hk]
      exact dictGet_map_update_self k v rest hrest

theorem dictGet_append_single_self {V : Type} (k : String) (v : V) :
    ∀ d : List (String × V), (d.any (fun kv => kv.1 == k)) = false →
    dictGet (d ++ [(k, v)]) k = some v
  | [], _ => by simp [dictGet]
  | kv :: rest, hmem => by
    have h1 : ¬ (kv.1 == k) = true := by
      simp only [List.any_cons, Bool.or_eq_false_iff] at hmem
      simp [hmem.1]
    have h2 : (rest.any (fun kv => kv.1 == k)) = false := by
      simp only [List.any_cons, Bool.or_eq_false_iff] at hmem
      exact hmem.2
    simp only [List.cons_append, dictGet]
    rw [if_neg h1]
    exact dictGet_append_single_self k v rest h2

theorem dictGet_update_self {V : Type} (d : List (String × V)) (k : String) (v : V) :
    dictGet (dictUpdate d k v) k = some v := by
  unfold dictUpdate
  cases hmem : (d.any fun kv => kv.1 == k) with
  | true =>
    simp only [hmem, if_pos]
    exact dictGet_map_update_self k v d hmem
  | false =>
    simp only [hmem, Bool.false_eq_true, if_neg, Bool.not_eq_true]
    exact dictGet_append_single_self k v d hmem

theorem dictGet_update_ne {V : Type} (d : List (String × V)) (k1 k : String) (v : V)
    (h : k1 ≠ k) : dictGet (dictUpdate d k1 v) k = dictGet d k := by
  unfold dictUpdate
  cases hmem : (d.any fun kv => kv.1 == k1) with
  | true =>
    simp only [hmem, if_pos]
    exact dictGet_map_update_ne k1 k v h d
  | false =>
    simp only [hmem, Bool.false_eq_true, if_neg, Bool.not_eq_true]
    exact dictGet_append_single_ne k1 k v h d

theorem dictGet_ite_update_ne {V : Type} (c : Prop) [Decidable c]
    (d : List (String × V)) (k1 k : String) (v : V) (h : k1 ≠ k) :
    dictGet (if c then dictUpdate d k1 v else d) k = dictGet d k := by
  by_cases hc : c
  · simp only [hc, if_pos]
    exact dictGet_update_ne d k1 k v h
  · simp [hc]

theorem dictGet_mongoRangeAdd_ne (k1 k : String) (op v : String) (h : k1 ≠ k) :
    ∀ d : MongoFilters, dictGet (mongoRangeAdd d k1 op v) k = dictGet d k
  | [] => rfl
  | kv :: rest => by
    have hf1 : ¬ (k1 == k) = true := by simp [h]
    unfold mongoRangeAdd
    by_cases hk1 : (kv.1 == k1) = true
    · have hkv1 : kv.1 = k1 := by simpa using hk1
      have hf2 : ¬ (kv.1 == k) = true := by simp [hkv1, h]
      rw [List.map_cons, if_pos hk1]
      simp only [dictGet]
      rw [if_neg hf1, if_neg hf2]
      exact dictGet_mongoRangeAdd_ne k1 k op v h rest
    · rw [List.map_cons, if_neg hk1]
      simp only [dictGet]
      by_cases hk : (kv.1 == k) = true
      · rw [if_pos hk, if_pos hk]
      · rw [if_neg hk, if_neg hk]
        exact dictGet_mongoRangeAdd_ne k1 k op v h rest

theorem dictGet_mongoRangeAdd_self (k : String) (op v : String)
    (ops : List (String × String)) :
    ∀ d : MongoFilters, dictGet d k = some (.range ops) →
    dictGet (mongoRangeAdd d k op v) k = some (.range (dictUpdate ops op v))
  | [], h => by simp [dictGet] at h
  | kv :: rest, h => by
    unfold mongoRangeAdd
    by_cases hk : (kv.1 == k) = true
    · have hv : kv.2 = .range ops := by
        have := h
        simp only [dictGet] at this
        rw [if_pos hk] at this
        simpa using this
      rw [List.map_cons, if_pos hk]
      simp [dictGet, hv]
    · have hrest : dictGet rest k = some (.range ops) := by
        have := h
        simp only [dictGet] at this
        rwa [if_neg hk] at this
      rw [List.map_cons, if_neg hk]
      simp only [dictGet]
      rw [if_neg hk]
      exact dictGet_mongoRangeAdd_self k op v ops rest hrest

/-! ## Helper lemmas: Elasticsearch filter extraction -/

/-- The voided constraints among a list of ES filters. -/
def esVoided (fs : List ESFilter) : List Bool :=
  fs.filterMap fun f =>
    match f with
    | .term field (.bool b) => if field == "metadata.voided" then some b else none
    | _ => none

/-- The range constraints among a list of ES filters. -/
def esRanges (fs : List ESFilter) : List (String × String × String) :=
  fs.filterMap fun f =>
    match f with
    | .range field op v => some (field, op, v)
    | _ => none

theorem esVoided_append (a b : List ESFilter) :
    esVoided (a ++ b) = esVoided a ++ esVoided b := by
  unfold esVoided
  exact List.filterMap_append a b _

theorem esRanges_append (a b : List ESFilter) :
    esRanges (a ++ b) = esRanges a ++ esRanges b := by
  unfold esRanges
  exact List.filterMap_append a b _

theorem esVoided_ite (c : Prop) [Decidable c] (l : List ESFilter) :
    esVoided (if c then l else []) = if c then esVoided l else [] := by
  split <;> rfl

theorem esRanges_ite (c : Prop) [Decidable c] (l : List ESFilter) :
    esRanges (if c then l else []) = if c then esRanges l else [] := by
  split <;> rfl

theorem esVoided_agent (ap : Option AgentParameters) (tf : String) :
    esVoided (es_add_agent_filters ap tf) = [] := by
  rcases ap with _ | a
  · rfl
  · unfold es_add_agent_filters
    by_cases h1 : truthy a.mbox
    · simp [h1, esVoided]
    · by_cases h2 : truthy a.mbox_sha1sum
      · simp [h1, h2, esVoided]
      · by_cases h3 : truthy a.openid
        · simp [h1, h2, h3, esVoided]
        · by_cases h4 : truthy a.account__name
          · cases hhp : a.account__home_page <;>
              simp [h1, h2, h3, h4, hhp, esVoided, esOptVal]
          · simp [h1, h2, h3, h4, esVoided]

theorem esRanges_agent (ap : Option AgentParameters) (tf : String) :
    esRanges (es_add_agent_filters ap tf) = [] := by
  rcases ap with _ | a
  · rfl
  · unfold es_add_agent_filters
    by_cases h1 : truthy a.mbox
    · simp [h1, esRanges]
    · by_cases h2 : truthy a.mbox_sha1sum
      · simp [h1, h2, esRanges]
      · by_cases h3 : truthy a.openid
        · simp [h1, h2, h3, esRanges]
        · by_cases h4 : truthy a.account__name
          · simp [h1, h2, h3, h4, esRanges]
          · simp [h1, h2, h3, h4, esRanges]

theorem esVoided_get_query (p : RalphStatementsQuery) :
    esVoided (es_get_query p).query_filters =
      (if truthy p.statement_id then [false]
       else if truthy p.voided_statement_id then [true]
       else []) := by
  unfold es_get_query
  simp only [esVoided_append, esVoided_agent, esVoided_ite]
  by_cases h1 : truthy p.statement_id
  · by_cases h5 : truthy p.verb <;> by_cases h6 : truthy p.activity <;>
      by_cases h7 : truthy p.since <;> by_cases h8 : truthy p.until_ <;>
      simp [h1, h5, h6, h7, h8, esVoided]
  · by_cases h2 : truthy p.voided_statement_id <;>
      by_cases h5 : truthy p.verb <;> by_cases h6 : truthy p.activity <;>
      by_cases h7 : truthy p.since <;> by_cases h8 : truthy p.until_ <;>
      simp [h1, h2, h5, h6, h7, h8, esVoided]

theorem esRanges_get_query (p : RalphStatementsQuery) :
    esRanges (es_get_query p).query_filters =
      (if truthy p.since then [("statement.timestamp", "gt", optVal p.since)] else [])
      ++
      (if truthy p.until_ then [("statement.timestamp", "lte", optVal p.until_)]
       else []) := by
  unfold es_get_query
  simp only [esRanges_append, esRanges_agent, esRanges_ite]
  by_cases h1 : truthy p.statement_id
  · by_cases h5 : truthy p.verb <;> by_cases h6 : truthy p.activity <;>
      by_cases h7 : truthy p.since <;> by_cases h8 : truthy p.until_ <;>
      simp [h1, h5, h6, h7, h8, esRanges]
  · by_cases h2 : truthy p.voided_statement_id <;>
      by_cases h5 : truthy p.verb <;> by_cases h6 : truthy p.activity <;>
      by_cases h7 : truthy p.since <;> by_cases h8 : truthy p.until_ <;>
      simp [h1, h2, h5, h6, h7, h8, esRanges]

theorem dictGet_update_ne' {V : Type} {k1 k : String} (h : k1 ≠ k)
    (d : List (String × V)) (v : V) :
    dictGet (dictUpdate d k1 v) k = dictGet d k :=
  dictGet_update_ne d k1 k v h

theorem dictGet_ite_update_ne' {V : Type} {k1 k : String} (h : k1 ≠ k)
    (c : Prop) [Decidable c] (d : List (String × V)) (v : V) :
    dictGet (if c then dictUpdate d k1 v else d) k = dictGet d k :=
  dictGet_ite_update_ne c d k1 k v h

theorem dictGet_mongoRangeAdd_ne' {k1 k : String} (h : k1 ≠ k)
    (d : MongoFilters) (op v : String) :
    dictGet (mongoRangeAdd d k1 op v) k = dictGet d k :=
  dictGet_mongoRangeAdd_ne k1 k op v h d

theorem mongo_agent_preserves (d : MongoFilters) (ap : Option AgentParameters)
    (tf k : String)
    (h1 : ("_source.statement." ++ tf ++ ".mbox") ≠ k)
    (h2 : ("_source.statement." ++ tf ++ ".mbox_sha1sum") ≠ k)
    (h3 : ("_source.statement." ++ tf ++ ".openid") ≠ k)
    (h4 : ("_source.statement." ++ tf ++ ".account.name") ≠ k)
    (h5 : ("_source.statement." ++ tf ++ ".account.homePage") ≠ k) :
    dictGet (mongo_add_agent_filters d ap tf) k = dictGet d k := by
  rcases ap with _ | a
  · rfl
  · unfold mongo_add_agent_filters
    by_cases hm : truthy a.mbox <;> by_cases hs : truthy a.mbox_sha1sum <;>
      by_cases ho : truthy a.openid <;> by_cases ha : truthy a.account__name <;>
      simp [hm, hs, ho, ha, dictGet_update_ne' h1, dictGet_update_ne' h2,
        dictGet_update_ne' h3, dictGet_update_ne' h4, dictGet_update_ne' h5]

theorem couch_agent_preserves (d : MongoFilters) (ap : Option AgentParameters)
    (tf k : String)
    (h1 : ("source." ++ tf ++ ".mbox") ≠ k)
    (h2 : ("source." ++ tf ++ ".mbox_sha1sum") ≠ k)
    (h3 : ("source." ++ tf ++ ".openid") ≠ k)
    (h4 : ("source." ++ tf ++ ".account.name") ≠ k)
    (h5 : ("source." ++ tf ++ ".account.homePage") ≠ k) :
    dictGet (couch_add_agent_filters d ap tf) k = dictGet d k := by
  rcases ap with _ | a
  · rfl
  · unfold couch_add_agent_filters
    by_cases hm : truthy a.mbox <;> by_cases hs : truthy a.mbox_sha1sum <;>
      by_cases ho : truthy a.openid <;> by_cases ha : truthy a.account__name <;>
      simp [hm, hs, ho, ha, dictGet_update_ne' h1, dictGet_update_ne' h2,
        dictGet_update_ne' h3, dictGet_update_ne' h4, dictGet_update_ne' h5]

theorem mongo_get_query_voided (p : RalphStatementsQuery) :
    dictGet (mongo_get_query p).filter "_source.metadata.voided" =
      (if truthy p.statement_id then some (.bool false)
       else if truthy p.voided_statement_id then some (.bool true)
       else some (.bool false)) := by
  simp only [mongo_get_query]
  rw [dictGet_ite_update_ne' (by decide)]
  by_cases hu : truthy p.until_
  · rw [if_pos hu]
    rw [dictGet_mongoRangeAdd_ne' (by decide)]
    rw [dictGet_ite_update_ne' (by decide)]
    rw [dictGet_ite_update_ne' (by decide)]
    rw [dictGet_ite_update_ne' (by decide)]
    rw [dictGet_ite_update_ne' (by decide)]
    rw [mongo_agent_preserves _ _ _ _ (by decide) (by decide) (by decide) (by decide)
      (by decide)]
    rw [mongo_agent_preserves _ _ _ _ (by decide) (by decide) (by decide) (by decide)
      (by decide)]
    by_cases h1 : truthy p.statement_id
    · simp [h1, dictGet]
    · by_cases h2 : truthy p.voided_statement_id <;> simp [h1, h2, dictGet]
  · rw [if_neg hu]
    rw [dictGet_ite_update_ne' (by decide)]
    rw [dictGet_ite_update_ne' (by decide)]
    rw [dictGet_ite_update_ne' (by decide)]
    rw [mongo_agent_preserves _ _ _ _ (by decide) (by decide) (by decide) (by decide)
      (by decide)]
    rw [mongo_agent_preserves _ _ _ _ (by decide) (by decide) (by decide) (by decide)
      (by decide)]
    by_cases h1 : truthy p.statement_id
    · simp [h1, dictGet]
    · by_cases h2 : truthy p.voided_statement_id <;> simp [h1, h2, dictGet]

theorem mongo_d0_timestamp_none (p : RalphStatementsQuery) :
    dictGet
      (if truthy p.statement_id then
        [("_source.statement.id", MongoVal.str (optVal p.statement_id)),
         ("_source.metadata.voided", MongoVal.bool false)]
       else if truthy p.voided_statement_id then
        [("_source.statement.id", MongoVal.str (optVal p.voided_statement_id)),
         ("_source.metadata.voided", MongoVal.bool true)]
       else [("_source.metadata.voided", MongoVal.bool false)])
      "_source.statement.timestamp" = none := by
  by_cases h1 : truthy p.statement_id
  · simp [h1, dictGet]
  · by_cases h2 : truthy p.voided_statement_id <;> simp [h1, h2, dictGet]

theorem mongo_get_query_timestamp (p : RalphStatementsQuery) :
    dictGet (mongo_get_query p).filter "_source.statement.timestamp" =
      (if truthy p.since then
        (if truthy p.until_ then
          some (.range [("$gt", optVal p.since), ("$lte", optVal p.until_)])
         else some (.range [("$gt", optVal p.since)]))
       else if truthy p.until_ then some (.range [("$lte", optVal p.until_)])
       else none) := by
  simp only [mongo_get_query]
  rw [dictGet_ite_update_ne' (by decide)]
  by_cases hu : truthy p.until_ <;> by_cases hsi : truthy p.since
  · simp only [hu, hsi, Bool.not_true, Bool.false_eq_true, if_true, if_false]
    rw [dictGet_mongoRangeAdd_self _ _ _ _ _ (dictGet_update_self _ _ _)]
    simp [dictUpdate]
  · simp only [hu, if_true]
    rw [if_neg hsi, if_neg hsi]
    rw [if_pos (show (!truthy p.since) = true by simp [hsi])]
    rw [dictGet_mongoRangeAdd_self _ _ _ _ _ (dictGet_update_self _ _ _)]
    simp [dictUpdate]
  · simp only [hsi, if_true]
    rw [if_neg hu, if_neg hu]
    exact dictGet_update_self _ _ _
  · simp only [if_neg hu, if_neg hsi]
    rw [dictGet_ite_update_ne' (by decide)]
    rw [dictGet_ite_update_ne' (by decide)]
    rw [mongo_agent_preserves _ _ _ _ (by decide) (by decide) (by decide) (by decide)
      (by decide)]
    rw [mongo_agent_preserves _ _ _ _ (by decide) (by decide) (by decide) (by decide)
      (by decide)]
    exact mongo_d0_timestamp_none p

theorem couch_filter_preserves_key (p : RalphStatementsQuery) (k : String)
    (hts : "source.timestamp" ≠ k)
    (hvb : "source.verb.id" ≠ k)
    (hac : "source.object.id" ≠ k)
    (hid : "source.id" ≠ k)
    (ha1 : ("source." ++ "actor" ++ ".mbox") ≠ k)
    (ha2 : ("source." ++ "actor" ++ ".mbox_sha1sum") ≠ k)
    (ha3 : ("source." ++ "actor" ++ ".openid") ≠ k)
    (ha4 : ("source." ++ "actor" ++ ".account.name") ≠ k)
    (ha5 : ("source." ++ "actor" ++ ".account.homePage") ≠ k)
    (hb1 : ("source." ++ "authority" ++ ".mbox") ≠ k)
    (hb2 : ("source." ++ "authority" ++ ".mbox_sha1sum") ≠ k)
    (hb3 : ("source." ++ "authority" ++ ".openid") ≠ k)
    (hb4 : ("source." ++ "authority" ++ ".account.name") ≠ k)
    (hb5 : ("source." ++ "authority" ++ ".account.homePage") ≠ k) :
    dictGet (couch_get_query p).filter k = none := by
  simp only [couch_get_query]
  have hd0 : dictGet
      (if truthy p.statement_id then
        [("source.id", MongoVal.str (optVal p.statement_id))]
       else []) k = none := by
    by_cases h1 : truthy p.statement_id <;> simp [h1, dictGet, hid]
  by_cases hu : truthy p.until_ <;> by_cases hsi : truthy p.since
  all_goals
    simp only [if_pos, if_neg, hu, hsi, Bool.not_true, Bool.not_false,
      Bool.false_eq_true, if_true, if_false]
  · rw [dictGet_mongoRangeAdd_ne' hts]
    rw [dictGet_update_ne' hts]
    rw [dictGet_ite_update_ne' hac, dictGet_ite_update_ne' hvb]
    rw [couch_agent_preserves _ _ _ _ hb1 hb2 hb3 hb4 hb5]
    rw [couch_agent_preserves _ _ _ _ ha1 ha2 ha3 ha4 ha5]
    exact hd0
  · rw [dictGet_mongoRangeAdd_ne' hts]
    rw [dictGet_update_ne' hts]
    rw [dictGet_ite_update_ne' hac, dictGet_ite_update_ne' hvb]
    rw [couch_agent_preserves _ _ _ _ hb1 hb2 hb3 hb4 hb5]
    rw [couch_agent_preserves _ _ _ _ ha1 ha2 ha3 ha4 ha5]
    exact hd0
  · rw [dictGet_update_ne' hts]
    rw [dictGet_ite_update_ne' hac, dictGet_ite_update_ne' hvb]
    rw [couch_agent_preserves _ _ _ _ hb1 hb2 hb3 hb4 hb5]
    rw [couch_agent_preserves _ _ _ _ ha1 ha2 ha3 ha4 ha5]
    exact hd0
  · rw [dictGet_ite_update_ne' hac, dictGet_ite_update_ne' hvb]
    rw [couch_agent_preserves _ _ _ _ hb1 hb2 hb3 hb4 hb5]
    rw [couch_agent_preserves _ _ _ _ ha1 ha2 ha3 ha4 ha5]
    exact hd0

theorem couch_get_query_timestamp (p : RalphStatementsQuery) :
    dictGet (couch_get_query p).filter "source.timestamp" =
      (if truthy p.since then
        (if truthy p.until_ then
          some (.range [("$gt", optVal p.since), ("$lte", optVal p.until_)])
         else some (.range [("$gt", optVal p.since)]))
       else if truthy p.until_ then some (.range [("$lte", optVal p.until_)])
       else none) := by
  simp only [couch_get_query]
  by_cases hu : truthy p.until_ <;> by_cases hsi : truthy p.since
  · simp only [hu, hsi, Bool.not_true, Bool.false_eq_true, if_true, if_false]
    rw [dictGet_mongoRangeAdd_self _ _ _ _ _ (dictGet_update_self _ _ _)]
    simp [dictUpdate]
  · simp only [hu, if_true]
    rw [if_neg hsi, if_neg hsi]
    rw [if_pos (show (!truthy p.since) = true by simp [hsi])]
    rw [dictGet_mongoRangeAdd_self _ _ _ _ _ (dictGet_update_self _ _ _)]
    simp [dictUpdate]
  · simp only [hsi, if_true]
    rw [if_neg hu, if_neg hu]
    exact dictGet_update_self _ _ _
  · simp only [if_neg hu, if_neg hsi]
    rw [dictGet_ite_update_ne' (by decide)]
    rw [dictGet_ite_update_ne' (by decide)]
    rw [couch_agent_preserves _ _ _ _ (by decide) (by decide) (by decide) (by decide)
      (by decide)]
    rw [couch_agent_preserves _ _ _ _ (by decide) (by decide) (by decide) (by decide)
      (by decide)]
    by_cases h1 : truthy p.statement_id <;> simp [h1, dictGet]

/-! ## Helper lemmas: the fs scan loop -/

theorem pageOf_nil (limit : Nat) : pageOf limit [] = ([], none) := by
  unfold pageOf
  rcases Nat.eq_zero_or_pos limit with h | h
  · simp [h]
  · simp [Nat.pos_iff_ne_zero.mp h, h]

theorem pageOf_cons (rem : Nat) (item : FSItem) (mr : List FSItem) (h : rem ≠ 1) :
    pageOf rem (item :: mr) =
      (item.statement :: (pageOf (rem - 1) mr).1, (pageOf (rem - 1) mr).2) := by
  match rem, h with
  | 0, _ => simp [pageOf]
  | n + 2, _ =>
    unfold pageOf
    have e1 : n + 2 - 1 = n + 1 := by omega
    rw [e1]
    by_cases hlen : mr.length < n + 1
    · rw [if_pos (Or.inr (show (item :: mr).length < n + 2 by
        simp only [List.length_cons]; omega))]
      rw [if_pos (Or.inr hlen)]
      simp
    · rw [if_neg (show ¬ (n + 2 = 0 ∨ (item :: mr).length < n + 2) by
        simp only [List.length_cons]; push_neg; omega)]
      rw [if_neg (show ¬ (n + 1 = 0 ∨ mr.length < n + 1) by push_neg; omega)]
      rfl

theorem afterFirstWithId_cons (t : String) (item : FSItem) (rest : List FSItem) :
    afterFirstWithId t (item :: rest) =
      if (item.statement.id == some t) = true then rest
      else afterFirstWithId t rest := rfl

theorem fs_scan_take (pfs : FSFilters) (sa : Option String) (limit : Nat) :
    ∀ (items : List FSItem) (seen : Bool) (count : Nat),
    (sa = none ∨ seen = true) → (count < limit ∨ limit = 0) →
    fs_scan pfs sa limit seen count items =
      pageOf (limit - count) (matchedItems pfs items)
  | [], seen, count, _, _ => by
    simp [fs_scan, matchedItems, pageOf_nil]
  | item :: rest, seen, count, hsa, hcnt => by
    by_cases hp : (pfs.all fun f => f item) = true
    · have htake :
          fs_scan pfs sa limit seen count (item :: rest) =
          (if (limit != 0 && count + 1 == limit) = true then
            ([item.statement], item.statement.id)
           else
            (item.statement :: (fs_scan pfs sa limit seen (count + 1) rest).1,
             (fs_scan pfs sa limit seen (count + 1) rest).2)) := by
        rcases hsa with rfl | rfl
        · simp [fs_scan, hp]
        · cases sa <;> simp [fs_scan, hp]
      have hmatched : matchedItems pfs (item :: rest) =
          item :: matchedItems pfs rest := by
        simp [matchedItems, passesAll, List.filter_cons, hp]
      rw [htake, hmatched]
      by_cases hlim : (limit != 0 && count + 1 == limit) = true
      · have hlim2 : limit ≠ 0 ∧ count + 1 = limit := by simpa using hlim
        have h0 : limit ≠ 0 := hlim2.1
        have h1 : count + 1 = limit := hlim2.2
        have hrem : limit - count = 1 := by omega
        rw [if_pos hlim, hrem]
        unfold pageOf
        rw [if_neg (by simp)]
        simp [List.take_succ_cons, List.get?]
      · rw [if_neg hlim]
        have hcnt2 : count + 1 < limit ∨ limit = 0 := by
          rcases hcnt with h | h
          · have h0 : limit ≠ 0 := by omega
            have hne : count + 1 ≠ limit := by
              intro he
              exact hlim (by simp [h0, he])
            exact Or.inl (by omega)
          · exact Or.inr h
        rw [fs_scan_take pfs sa limit rest seen (count + 1) hsa hcnt2]
        have hrem1 : limit - count ≠ 1 := by
          rcases hcnt2 with h | h <;> omega
        rw [pageOf_cons (limit - count) item (matchedItems pfs rest) hrem1]
        have : limit - count - 1 = limit - (count + 1) := by omega
        rw [this]
    · have hskip :
          fs_scan pfs sa limit seen count (item :: rest) =
          fs_scan pfs sa limit seen count rest := by
        rcases hsa with rfl | rfl
        · simp [fs_scan, hp]
        · cases sa <;> simp [fs_scan, hp]
      have hmatched : matchedItems pfs (item :: rest) = matchedItems pfs rest := by
        simp [matchedItems, passesAll, List.filter_cons, hp]
      rw [hskip, hmatched]
      exact fs_scan_take pfs sa limit rest seen count hsa hcnt

theorem fs_scan_sa (pfs : FSFilters) (t : String) (limit : Nat) :
    ∀ (items : List FSItem) (count : Nat),
    (count < limit ∨ limit = 0) →
    fs_scan pfs (some t) limit false count items =
      pageOf (limit - count) (afterFirstWithId t (matchedItems pfs items))
  | [], count, _ => by
    simp [fs_scan, matchedItems, afterFirstWithId, pageOf_nil]
  | item :: rest, count, hcnt => by
    by_cases hp : (pfs.all fun f => f item) = true
    · have hmatched : matchedItems pfs (item :: rest) =
          item :: matchedItems pfs rest := by
        simp [matchedItems, passesAll, List.filter_cons, hp]
      have hstep :
          fs_scan pfs (some t) limit false count (item :: rest) =
          fs_scan pfs (some t) limit (item.statement.id == some t) count rest := by
        simp [fs_scan, hp]
      rw [hstep, hmatched]
      by_cases hid : (item.statement.id == some t) = true
      · rw [hid]
        rw [fs_scan_take pfs (some t) limit rest true count (Or.inr rfl) hcnt]
        rw [afterFirstWithId_cons, if_pos hid]
      · rw [Bool.eq_false_iff.mpr hid]
        rw [fs_scan_sa pfs t limit rest count hcnt]
        rw [afterFirstWithId_cons, if_neg hid]
    · have hmatched : matchedItems pfs (item :: rest) = matchedItems pfs rest := by
        simp [matchedItems, passesAll, List.filter_cons, hp]
      have hskip :
          fs_scan pfs (some t) limit false count (item :: rest) =
          fs_scan pfs (some t) limit false count rest := by
        simp [fs_scan, hp]
      rw [hskip, hmatched]
      exact fs_scan_sa pfs t limit rest count hcnt

theorem fs_query_statements_eq_spec (parse : String → Option Int)
    (p : RalphStatementsQuery) (items : List FSItem) :
    fs_query_statements parse p items =
      ⟨(if p.ascending then (pageOf p.limit (effItems parse p items)).1.reverse
        else (pageOf p.limit (effItems parse p items)).1),
       (pageOf p.limit (effItems parse p items)).2⟩ := by
  have hcnt : 0 < p.limit ∨ p.limit = 0 := by omega
  simp only [fs_query_statements, effItems]
  by_cases hsa : truthy p.search_after
  · rw [if_pos hsa, if_pos hsa]
    rw [fs_scan_sa (fs_build_filters parse p) (optVal p.search_after) p.limit items 0
      hcnt]
    simp
  · rw [if_neg hsa, if_neg hsa]
    rw [fs_scan_take (fs_build_filters parse p) none p.limit items false 0
      (Or.inl rfl) hcnt]
    simp

/-! ## Helper lemmas: structure of the fs filter list -/

/-- A predicate that never inspects the record metadata. -/
def metaIndep (f : FSItem → Bool) : Prop :=
  ∀ (s : SDoc) (m1 m2 : Metadata), f ⟨s, m1⟩ = f ⟨s, m2⟩

theorem fs_add_mbox_split (fls : FSFilters) (mb : Option String) (rel : Bool)
    (field : AgentField) :
    ∃ ext, fs_add_filter_by_mbox fls mb rel field = fls ++ ext ∧
      ∀ f ∈ ext, metaIndep f := by
  unfold fs_add_filter_by_mbox
  by_cases h : truthy mb
  · rw [if_pos h]
    refine ⟨_, rfl, ?_⟩
    intro f hf
    simp only [List.mem_singleton] at hf
    subst hf
    cases rel <;> intro s m1 m2 <;> rfl
  · rw [if_neg h]
    exact ⟨[], by simp, by simp⟩

theorem fs_add_sha1sum_split (fls : FSFilters) (sh : Option String) (rel : Bool)
    (field : AgentField) :
    ∃ ext, fs_add_filter_by_sha1sum fls sh rel field = fls ++ ext ∧
      ∀ f ∈ ext, metaIndep f := by
  unfold fs_add_filter_by_sha1sum
  by_cases h : truthy sh
  · rw [if_pos h]
    refine ⟨_, rfl, ?_⟩
    intro f hf
    simp only [List.mem_singleton] at hf
    subst hf
    cases rel <;> intro s m1 m2 <;> rfl
  · rw [if_neg h]
    exact ⟨[], by simp, by simp⟩

theorem fs_add_openid_split (fls : FSFilters) (oi : Option String) (rel : Bool)
    (field : AgentField) :
    ∃ ext, fs_add_filter_by_openid fls oi rel field = fls ++ ext ∧
      ∀ f ∈ ext, metaIndep f := by
  unfold fs_add_filter_by_openid
  by_cases h : truthy oi
  · rw [if_pos h]
    refine ⟨_, rfl, ?_⟩
    intro f hf
    simp only [List.mem_singleton] at hf
    subst hf
    cases rel <;> intro s m1 m2 <;> rfl
  · rw [if_neg h]
    exact ⟨[], by simp, by simp⟩

theorem fs_add_account_split (fls : FSFilters) (name homePage : Option String)
    (rel : Bool) (field : AgentField) :
    ∃ ext, fs_add_filter_by_account fls name homePage rel field = fls ++ ext ∧
      ∀ f ∈ ext, metaIndep f := by
  unfold fs_add_filter_by_account
  by_cases h : (truthy name && truthy homePage) = true
  · rw [if_pos h]
    refine ⟨_, rfl, ?_⟩
    intro f hf
    simp only [List.mem_singleton] at hf
    subst hf
    cases rel <;> intro s m1 m2 <;> rfl
  · rw [if_neg h]
    exact ⟨[], by simp, by simp⟩

theorem fs_add_verb_split (fls : FSFilters) (verb : Option String) :
    ∃ ext, fs_add_filter_by_verb fls verb = fls ++ ext ∧ ∀ f ∈ ext, metaIndep f := by
  unfold fs_add_filter_by_verb
  by_cases h : truthy verb
  · rw [if_pos h]
    refine ⟨_, rfl, ?_⟩
    intro f hf
    simp only [List.mem_singleton] at hf
    subst hf
    intro s m1 m2
    rfl
  · rw [if_neg h]
    exact ⟨[], by simp, by simp⟩

theorem fs_add_activity_split (fls : FSFilters) (activity : Option String)
    (rel : Bool) :
    ∃ ext, fs_add_filter_by_activity fls activity rel = fls ++ ext ∧
      ∀ f ∈ ext, metaIndep f := by
  unfold fs_add_filter_by_activity
  by_cases h : truthy activity
  · rw [if_pos h]
    refine ⟨_, rfl, ?_⟩
    intro f hf
    simp only [List.mem_singleton] at hf
    subst hf
    cases rel <;> intro s m1 m2 <;> rfl
  · rw [if_neg h]
    exact ⟨[], by simp, by simp⟩

theorem fs_add_registration_split (fls : FSFilters) (reg : Option String) :
    ∃ ext, fs_add_filter_by_registration fls reg = fls ++ ext ∧
      ∀ f ∈ ext, metaIndep f := by
  rcases reg with _ | r
  · exact ⟨[], by simp [fs_add_filter_by_registration], by simp⟩
  · refine ⟨[match_registration r], by simp [fs_add_filter_by_registration], ?_⟩
    intro f hf
    simp only [List.mem_singleton] at hf
    subst hf
    intro s m1 m2
    rfl

theorem fs_add_since_split (parse : String → Option Int) (fls : FSFilters)
    (since : Option String) :
    ∃ ext, fs_add_filter_by_timestamp_since parse fls since = fls ++ ext ∧
      ∀ f ∈ ext, metaIndep f := by
  rcases since with _ | sv
  · exact ⟨[], by simp [fs_add_filter_by_timestamp_since], by simp⟩
  · rcases hp : parse sv with _ | b
    · exact ⟨[], by simp [fs_add_filter_by_timestamp_since, hp], by simp⟩
    · refine ⟨[match_since parse b],
        by simp [fs_add_filter_by_timestamp_since, hp], ?_⟩
      intro f hf
      simp only [List.mem_singleton] at hf
      subst hf
      intro s m1 m2
      rfl

theorem fs_add_until_split (parse : String → Option Int) (fls : FSFilters)
    (until_ : Option String) :
    ∃ ext, fs_add_filter_by_timestamp_until parse fls until_ = fls ++ ext ∧
      ∀ f ∈ ext, metaIndep f := by
  rcases until_ with _ | sv
  · exact ⟨[], by simp [fs_add_filter_by_timestamp_until], by simp⟩
  · rcases hp : parse sv with _ | b
    · exact ⟨[], by simp [fs_add_filter_by_timestamp_until, hp], by simp⟩
    · refine ⟨[match_until parse b],
        by simp [fs_add_filter_by_timestamp_until, hp], ?_⟩
      intro f hf
      simp only [List.mem_singleton] at hf
      subst hf
      intro s m1 m2
      rfl

theorem fs_add_agent_split (fls : FSFilters) (ag : Option AgentParameters)
    (rel : Bool) :
    ∃ ext, fs_add_filter_by_agent fls ag rel = fls ++ ext ∧
      ∀ f ∈ ext, metaIndep f := by
  rcases ag with _ | a
  · exact ⟨[], by simp [fs_add_filter_by_agent], by simp⟩
  · simp only [fs_add_filter_by_agent]
    rcases fs_add_mbox_split fls a.mbox rel .actor with ⟨e1, he1, hm1⟩
    rw [he1]
    rcases fs_add_sha1sum_split (fls ++ e1) a.mbox_sha1sum rel .actor with
      ⟨e2, he2, hm2⟩
    rw [he2]
    rcases fs_add_openid_split (fls ++ e1 ++ e2) a.openid rel .actor with
      ⟨e3, he3, hm3⟩
    rw [he3]
    rcases fs_add_account_split (fls ++ e1 ++ e2 ++ e3) a.account__name
      a.account__home_page rel .actor with ⟨e4, he4, hm4⟩
    rw [he4]
    refine ⟨e1 ++ e2 ++ e3 ++ e4, by simp [List.append_assoc], ?_⟩
    intro f hf
    simp only [List.mem_append] at hf
    rcases hf with ((h | h) | h) | h
    · exact hm1 f h
    · exact hm2 f h
    · exact hm3 f h
    · exact hm4 f h

theorem fs_add_authority_split (fls : FSFilters) (au : Option AgentParameters) :
    ∃ ext, fs_add_filter_by_authority fls au = fls ++ ext ∧
      ∀ f ∈ ext, metaIndep f := by
  rcases au with _ | a
  · exact ⟨[], by simp [fs_add_filter_by_authority], by simp⟩
  · simp only [fs_add_filter_by_authority]
    rcases fs_add_mbox_split fls a.mbox false .authority with ⟨e1, he1, hm1⟩
    rw [he1]
    rcases fs_add_sha1sum_split (fls ++ e1) a.mbox_sha1sum false .authority with
      ⟨e2, he2, hm2⟩
    rw [he2]
    rcases fs_add_openid_split (fls ++ e1 ++ e2) a.openid false .authority with
      ⟨e3, he3, hm3⟩
    rw [he3]
    rcases fs_add_account_split (fls ++ e1 ++ e2 ++ e3) a.account__name
      a.account__home_page false .authority with ⟨e4, he4, hm4⟩
    rw [he4]
    refine ⟨e1 ++ e2 ++ e3 ++ e4, by simp [List.append_assoc], ?_⟩
    intro f hf
    simp only [List.mem_append] at hf
    rcases hf with ((h | h) | h) | h
    · exact hm1 f h
    · exact hm2 f h
    · exact hm3 f h
    · exact hm4 f h

theorem fs_build_filters_split (parse : String → Option Int)
    (p : RalphStatementsQuery) :
    ∃ ext,
      fs_build_filters parse p =
        (if truthy p.statement_id then [match_statement_id (optVal p.statement_id)]
         else if truthy p.voided_statement_id then
           [match_voided_statement_id (optVal p.voided_statement_id)]
         else []) ++ ext ∧
      ∀ f ∈ ext, metaIndep f := by
  simp only [fs_build_filters]
  have hf0 :
      (if truthy p.statement_id then fs_add_filter_by_id [] p.statement_id
       else if truthy p.voided_statement_id then
         fs_add_filter_by_voided_id [] p.voided_statement_id
       else []) =
      (if truthy p.statement_id then [match_statement_id (optVal p.statement_id)]
       else if truthy p.voided_statement_id then
         [match_voided_statement_id (optVal p.voided_statement_id)]
       else []) := by
    by_cases h1 : truthy p.statement_id
    · simp [h1, fs_add_filter_by_id]
    · by_cases h2 : truthy p.voided_statement_id <;>
        simp [h1, h2, fs_add_filter_by_voided_id]
  rw [hf0]
  rcases fs_add_agent_split _ p.agent p.related_agents with ⟨e1, he1, hm1⟩
  rw [he1]
  rcases fs_add_authority_split _ p.authority with ⟨e2, he2, hm2⟩
  rw [he2]
  rcases fs_add_verb_split _ p.verb with ⟨e3, he3, hm3⟩
  rw [he3]
  rcases fs_add_activity_split _ p.activity p.related_activities with ⟨e4, he4, hm4⟩
  rw [he4]
  rcases fs_add_registration_split _ p.registration with ⟨e5, he5, hm5⟩
  rw [he5]
  rcases fs_add_since_split parse _ p.since with ⟨e6, he6, hm6⟩
  rw [he6]
  rcases fs_add_until_split parse _ p.until_ with ⟨e7, he7, hm7⟩
  rw [he7]
  refine ⟨e1 ++ e2 ++ e3 ++ e4 ++ e5 ++ e6 ++ e7, by simp [List.append_assoc], ?_⟩
  intro f hf
  simp only [List.mem_append] at hf
  rcases hf with (((((h | h) | h) | h) | h) | h) | h
  · exact hm1 f h
  · exact hm2 f h
  · exact hm3 f h
  · exact hm4 f h
  · exact hm5 f h
  · exact hm6 f h
  · exact hm7 f h

theorem all_metaIndep (s : SDoc) (m1 m2 : Metadata) :
    ∀ ext : FSFilters, (∀ f ∈ ext, metaIndep f) →
    (ext.all fun f => f ⟨s, m1⟩) = (ext.all fun f => f ⟨s, m2⟩)
  | [], _ => rfl
  | f :: rest, h => by
    have hh := h f (by simp) s m1 m2
    have ht := all_metaIndep s m1 m2 rest (fun g hg => h g (by simp [hg]))
    simp [List.all_cons, hh, ht]

/-! ## Claim theorems: query translation -/

def sdoc0 : SDoc := .mk none none none none {} {} {} {} {} none [] none

def sdocTs (i ts : String) : SDoc :=
  .mk (some i) none (some ts) none {} {} {} {} {} none [] none

/-- C2 (amended): the ES, Mongo and FS translators constrain `voided` to
false when `statementId` is set and to true when `voidedStatementId` is
set; in the default listing case only the Mongo translator adds the
implicit `voided == false` — ES and FS add no voided constraint then, and
the Couch translator never constrains `voided` (it ignores
`voidedStatementId` altogether). -/
theorem voided_constraint_by_translator :
    (∀ p : RalphStatementsQuery,
      esVoided (es_get_query p).query_filters =
        (if truthy p.statement_id then [false]
         else if truthy p.voided_statement_id then [true]
         else [])) ∧
    (∀ p : RalphStatementsQuery,
      dictGet (mongo_get_query p).filter "_source.metadata.voided" =
        (if truthy p.statement_id then some (.bool false)
         else if truthy p.voided_statement_id then some (.bool true)
         else some (.bool false))) ∧
    (∀ p : RalphStatementsQuery,
      dictGet (couch_get_query p).filter "source.metadata.voided" = none ∧
      couch_get_query p = couch_get_query { p with voided_statement_id := none }) ∧
    (∀ (parse : String → Option Int) (p : RalphStatementsQuery) (item : FSItem),
      truthy p.statement_id = true → item.metadata.voided = true →
      passesAll (fs_build_filters parse p) item = false) ∧
    (∀ (parse : String → Option Int) (p : RalphStatementsQuery) (item : FSItem),
      truthy p.statement_id = false → truthy p.voided_statement_id = true →
      item.metadata.voided = false →
      passesAll (fs_build_filters parse p) item = false) ∧
    (∀ (parse : String → Option Int) (p : RalphStatementsQuery) (s : SDoc)
      (m1 m2 : Metadata),
      truthy p.statement_id = false → truthy p.voided_statement_id = false →
      passesAll (fs_build_filters parse p) ⟨s, m1⟩ =
        passesAll (fs_build_filters parse p) ⟨s, m2⟩) := by
  refine ⟨esVoided_get_query, mongo_get_query_voided, ?_, ?_, ?_, ?_⟩
  · intro p
    refine ⟨couch_filter_preserves_key p _ (by decide) (by decide) (by decide)
      (by decide) (by decide) (by decide) (by decide) (by decide) (by decide)
      (by decide) (by decide) (by decide) (by decide) (by decide), rfl⟩
  · intro parse p item h1 hv
    rcases fs_build_filters_split parse p with ⟨ext, heq, _⟩
    rw [heq, if_pos h1]
    simp [passesAll, match_statement_id, hv]
  · intro parse p item h1 h2 hv
    rcases fs_build_filters_split parse p with ⟨ext, heq, _⟩
    rw [heq]
    rw [if_neg (by simp [h1]), if_pos h2]
    simp [passesAll, match_voided_statement_id, hv]
  · intro parse p s m1 m2 h1 h2
    rcases fs_build_filters_split parse p with ⟨ext, heq, hmeta⟩
    rw [heq]
    rw [if_neg (by simp [h1]), if_neg (by simp [h2])]
    simp only [List.nil_append, passesAll]
    exact all_metaIndep s m1 m2 ext hmeta

/-- C2 witness: the fs conjuncts at concrete inputs. -/
theorem voided_constraint_by_translator_witness :
    (passesAll (fs_build_filters (fun _ => none) { statement_id := some "x" })
      ⟨sdoc0, ⟨true⟩⟩ = false) ∧
    (passesAll (fs_build_filters (fun _ => none) { voided_statement_id := some "x" })
      ⟨sdoc0, ⟨false⟩⟩ = false) ∧
    (passesAll (fs_build_filters (fun _ => none) {}) ⟨sdoc0, ⟨true⟩⟩ =
      passesAll (fs_build_filters (fun _ => none) {}) ⟨sdoc0, ⟨false⟩⟩) :=
  ⟨voided_constraint_by_translator.2.2.2.1 _ _ _ rfl rfl,
   voided_constraint_by_translator.2.2.2.2.1 _ _ _ rfl rfl rfl,
   voided_constraint_by_translator.2.2.2.2.2 _ _ _ _ _ rfl rfl⟩

/-- C2 counterexample: the default (no-id) ES query carries no filter at
all, in particular no `voided == false` constraint. -/
theorem es_default_query_no_voided_filter :
    (es_get_query {}).query_filters = [] ∧
    esVoided (es_get_query {}).query_filters = [] :=
  ⟨rfl, rfl⟩

/-- C3 (amended): Mongo and Couch sort by the pair (timestamp, native
document id), both keys following `ascending`; ES sorts by the timestamp
alone; the fs backend does not sort at all — it returns records in file
scan order, reversing the page when `ascending` is true. -/
theorem sort_order_by_translator :
    (∀ p : RalphStatementsQuery, p.ignore_order = false →
      (es_get_query p).sort =
        .keys [("statement.timestamp", if p.ascending then "asc" else "desc")]) ∧
    (∀ p : RalphStatementsQuery,
      (mongo_get_query p).sort =
        [("_source.statement.timestamp",
          if p.ascending then SortDirection.asc else SortDirection.desc),
         ("_id", if p.ascending then SortDirection.asc else SortDirection.desc)]) ∧
    (∀ p : RalphStatementsQuery,
      (couch_get_query p).sort =
        [("source.timestamp",
          if p.ascending then SortDirection.asc else SortDirection.desc),
         ("_id", if p.ascending then SortDirection.asc else SortDirection.desc)]) ∧
    (∀ (parse : String → Option Int) (asc : Bool) (items : List FSItem),
      (fs_query_statements parse { ascending := asc } items).statements =
        (if asc then (items.map (fun it => it.statement)).reverse
         else items.map (fun it => it.statement))) := by
  refine ⟨?_, ?_, ?_, ?_⟩
  · intro p h
    simp [es_get_query, h]
  · intro p
    simp [mongo_get_query]
  · intro p
    simp [couch_get_query]
  · intro parse asc items
    rw [fs_query_statements_eq_spec]
    have heff : effItems parse { ascending := asc } items = items := by
      simp only [effItems, matchedItems]
      rw [if_neg (by simp [truthy])]
      have hb : fs_build_filters parse { ascending := asc } = [] := rfl
      rw [hb]
      simp [passesAll]
    have hp0 : ∀ l : List FSItem, pageOf 0 l = (l.map (fun it => it.statement), none) := by
      intro l
      simp [pageOf]
    rw [show ({ ascending := asc } : RalphStatementsQuery).limit = 0 from rfl, heff,
      hp0]

/-- C3 witness: the ES conjunct at the default query. -/
theorem sort_order_by_translator_witness :
    ({} : RalphStatementsQuery).ignore_order = false ∧
    (es_get_query {}).sort =
      .keys [("statement.timestamp",
        if ({} : RalphStatementsQuery).ascending then "asc" else "desc")] :=
  ⟨rfl, sort_order_by_translator.1 {} rfl⟩

/-- C3 counterexample: the ES sort has a single key (no id tie-breaker),
and a descending fs query returns two statements in ascending timestamp
scan order. -/
theorem sort_order_counterexample :
    (es_get_query {}).sort = .keys [("statement.timestamp", "desc")] ∧
    ({} : RalphStatementsQuery).ascending = false ∧
    (fs_query_statements (fun s => s.toInt?) {}
      [⟨sdocTs "a" "1", ⟨false⟩⟩, ⟨sdocTs "b" "3", ⟨false⟩⟩]).statements =
      [sdocTs "a" "1", sdocTs "b" "3"] ∧
    (sdocTs "a" "1").timestamp = some "1" ∧
    (sdocTs "b" "3").timestamp = some "3" :=
  ⟨rfl, rfl, rfl, rfl, rfl⟩

/-- C4 (amended): only the ES translator implements first-non-empty-wins
for the agent identifiers (an `if/elif` cascade); the Mongo, Couch and FS
translators add one filter per non-empty identifier, so several
identifiers are combined as a conjunction rather than ignored. -/
theorem agent_identifier_selection :
    (∀ (a : AgentParameters) (tf : String), truthy a.mbox = true →
      es_add_agent_filters (some a) tf =
        [.term ("statement." ++ tf ++ ".mbox.keyword") (.str (optVal a.mbox))]) ∧
    (∀ (a : AgentParameters) (tf : String), truthy a.mbox = false →
      truthy a.mbox_sha1sum = true →
      es_add_agent_filters (some a) tf =
        [.term ("statement." ++ tf ++ ".mbox_sha1sum.keyword")
          (.str (optVal a.mbox_sha1sum))]) ∧
    (∀ (a : AgentParameters) (tf : String), truthy a.mbox = false →
      truthy a.mbox_sha1sum = false → truthy a.openid = true →
      es_add_agent_filters (some a) tf =
        [.term ("statement." ++ tf ++ ".openid.keyword") (.str (optVal a.openid))]) ∧
    (∀ a : AgentParameters,
      dictGet (mongo_add_agent_filters [] (some a) "actor")
          "_source.statement.actor.mbox" =
        (if truthy a.mbox then some (.str (optVal a.mbox)) else none) ∧
      dictGet (mongo_add_agent_filters [] (some a) "actor")
          "_source.statement.actor.mbox_sha1sum" =
        (if truthy a.mbox_sha1sum then some (.str (optVal a.mbox_sha1sum)) else none) ∧
      dictGet (mongo_add_agent_filters [] (some a) "actor")
          "_source.statement.actor.openid" =
        (if truthy a.openid then some (.str (optVal a.openid)) else none) ∧
      dictGet (mongo_add_agent_filters [] (some a) "actor")
          "_source.statement.actor.account.name" =
        (if truthy a.account__name then some (.str (optVal a.account__name))
         else none)) ∧
    (∀ a : AgentParameters,
      dictGet (couch_add_agent_filters [] (some a) "actor") "source.actor.mbox" =
        (if truthy a.mbox then some (.str (optVal a.mbox)) else none) ∧
      dictGet (couch_add_agent_filters [] (some a) "actor") "source.actor.openid" =
        (if truthy a.openid then some (.str (optVal a.openid)) else none)) ∧
    (∀ (a : AgentParameters) (item : FSItem),
      passesAll (fs_add_filter_by_agent [] (some a) false) item =
        ((!truthy a.mbox || match_mbox .actor (optVal a.mbox) item) &&
         ((!truthy a.mbox_sha1sum ||
            match_sha1sum .actor (optVal a.mbox_sha1sum) item) &&
          ((!truthy a.openid || match_openid .actor (optVal a.openid) item) &&
           (!(truthy a.account__name && truthy a.account__home_page) ||
            match_account .actor (optVal a.account__name)
              (optVal a.account__home_page) item))))) := by
  refine ⟨?_, ?_, ?_, ?_, ?_, ?_⟩
  · intro a tf h
    simp [es_add_agent_filters, h]
  · intro a tf h1 h2
    simp [es_add_agent_filters, h1, h2]
  · intro a tf h1 h2 h3
    simp [es_add_agent_filters, h1, h2, h3]
  · intro a
    by_cases hm : truthy a.mbox <;> by_cases hs : truthy a.mbox_sha1sum <;>
      by_cases ho : truthy a.openid <;> by_cases ha : truthy a.account__name <;>
      refine ⟨?_, ?_, ?_, ?_⟩ <;>
      simp [mongo_add_agent_filters, dictUpdate, dictGet, hm, hs, ho, ha]
  · intro a
    by_cases hm : truthy a.mbox <;> by_cases hs : truthy a.mbox_sha1sum <;>
      by_cases ho : truthy a.openid <;> by_cases ha : truthy a.account__name <;>
      refine ⟨?_, ?_⟩ <;>
      simp [couch_add_agent_filters, dictUpdate, dictGet, hm, hs, ho, ha]
  · intro a item
    by_cases hm : truthy a.mbox <;> by_cases hs : truthy a.mbox_sha1sum <;>
      by_cases ho : truthy a.openid <;>
      by_cases hacc : (truthy a.account__name && truthy a.account__home_page) = true <;>
      simp [fs_add_filter_by_agent, fs_add_filter_by_mbox, fs_add_filter_by_sha1sum,
        fs_add_filter_by_openid, fs_add_filter_by_account, passesAll, hm, hs, ho,
        hacc, List.all_append]

def apBoth : AgentParameters := { mbox := some "mailto:a@b.c", openid := some "http://o" }

/-- C4 counterexample: with both `mbox` and `openid` set, the Mongo
translator filters on both actor sub-fields instead of ignoring the later
identifier. -/
theorem mongo_agent_filters_not_first_wins :
    dictGet (mongo_add_agent_filters [] (some apBoth) "actor")
        "_source.statement.actor.openid" = some (.str "http://o") ∧
    dictGet (mongo_add_agent_filters [] (some apBoth) "actor")
        "_source.statement.actor.mbox" = some (.str "mailto:a@b.c") :=
  ⟨rfl, rfl⟩

/-- C4 witness: the ES first-wins conjunct at a concrete agent. -/
theorem agent_identifier_selection_witness :
    truthy apBoth.mbox = true ∧
    es_add_agent_filters (some apBoth) "actor" =
      [.term ("statement." ++ "actor" ++ ".mbox.keyword")
        (.str (optVal apBoth.mbox))] :=
  ⟨rfl, agent_identifier_selection.1 apBoth "actor" rfl⟩

/-- C5: in every translator the `since` bound is strict (greater-than) and
the `until` bound is inclusive (less-or-equal): ES emits `gt`/`lte`
ranges, Mongo and Couch emit `$gt`/`$lte`, and the fs predicates test
strictly-greater resp. less-or-equal on the parsed timestamps. -/
theorem since_until_bounds :
    (∀ p : RalphStatementsQuery,
      esRanges (es_get_query p).query_filters =
        (if truthy p.since then [("statement.timestamp", "gt", optVal p.since)]
         else [])
        ++
        (if truthy p.until_ then [("statement.timestamp", "lte", optVal p.until_)]
         else [])) ∧
    (∀ p : RalphStatementsQuery,
      dictGet (mongo_get_query p).filter "_source.statement.timestamp" =
        (if truthy p.since then
          (if truthy p.until_ then
            some (.range [("$gt", optVal p.since), ("$lte", optVal p.until_)])
           else some (.range [("$gt", optVal p.since)]))
         else if truthy p.until_ then some (.range [("$lte", optVal p.until_)])
         else none)) ∧
    (∀ p : RalphStatementsQuery,
      dictGet (couch_get_query p).filter "source.timestamp" =
        (if truthy p.since then
          (if truthy p.until_ then
            some (.range [("$gt", optVal p.since), ("$lte", optVal p.until_)])
           else some (.range [("$gt", optVal p.since)]))
         else if truthy p.until_ then some (.range [("$lte", optVal p.until_)])
         else none)) ∧
    (∀ (parse : String → Option Int) (b : Int) (item : FSItem),
      match_since parse b item = true ↔
        ∃ ts t, item.statement.timestamp = some ts ∧ parse ts = some t ∧ b < t) ∧
    (∀ (parse : String → Option Int) (b : Int) (item : FSItem),
      match_until parse b item = true ↔
        ∃ ts t, item.statement.timestamp = some ts ∧ parse ts = some t ∧ t ≤ b) := by
  refine ⟨esRanges_get_query, mongo_get_query_timestamp, couch_get_query_timestamp,
    ?_, ?_⟩
  · intro parse b item
    unfold match_since
    rcases h1 : item.statement.timestamp with _ | ts
    · simp
    · rcases h2 : parse ts with _ | t
      · simp [h2]
      · simp [h2]
  · intro parse b item
    unfold match_until
    rcases h1 : item.statement.timestamp with _ | ts
    · simp
    · rcases h2 : parse ts with _ | t
      · simp [h2]
      · simp [h2]

/-- C10: the fs `since`/`until` predicates are total: a record whose
statement has a missing or unparsable timestamp is never matched — the
caught TypeError/ValueError path returns false instead of propagating. -/
theorem fs_time_filters_total (parse : String → Option Int) (b : Int) (item : FSItem)
    (h : item.statement.timestamp = none ∨
      ∃ ts, item.statement.timestamp = some ts ∧ parse ts = none) :
    match_since parse b item = false ∧ match_until parse b item = false := by
  rcases h with h | ⟨ts, hts, hp⟩
  · simp [match_since, match_until, h]
  · simp [match_since, match_until, hts, hp]

/-- A simple concrete timestamp parser used by witnesses: decimal digit
strings parse to their integer value, everything else fails. -/
def decimalParse (s : String) : Option Int :=
  if s.data.isEmpty then none
  else if s.data.all Char.isDigit then
    some (Int.ofNat (s.data.foldl (fun n c => n * 10 + (c.toNat - 48)) 0))
  else none

/-- C10 witness: a record with the unparsable timestamp "abc" under the
decimal timestamp parser. -/
theorem fs_time_filters_total_witness :
    ((⟨sdocTs "a" "abc", ⟨false⟩⟩ : FSItem).statement.timestamp = none ∨
      ∃ ts, (⟨sdocTs "a" "abc", ⟨false⟩⟩ : FSItem).statement.timestamp = some ts ∧
        decimalParse ts = none) ∧
    (match_since decimalParse 0 ⟨sdocTs "a" "abc", ⟨false⟩⟩ = false ∧
     match_until decimalParse 0 ⟨sdocTs "a" "abc", ⟨false⟩⟩ = false) :=
  ⟨Or.inr ⟨"abc", rfl, by decide⟩,
   fs_time_filters_total decimalParse 0 _ (Or.inr ⟨"abc", rfl, by decide⟩)⟩

/-- C7 (amended): the fs result pages through the matching records,
resumed strictly after the first matching record carrying the cursor id
when `search_after` is set; the cursor is non-null exactly when a non-zero
limit was reached and equals the id of the last matched record in scan
order (after the `ascending` reversal of the page this is the first
returned statement, not the last). -/
theorem fs_cursor_and_resumption :
    (∀ (parse : String → Option Int) (p : RalphStatementsQuery)
      (items : List FSItem),
      fs_query_statements parse p items =
        ⟨(if p.ascending then (pageOf p.limit (effItems parse p items)).1.reverse
          else (pageOf p.limit (effItems parse p items)).1),
         (pageOf p.limit (effItems parse p items)).2⟩) ∧
    (∀ (parse : String → Option Int) (p : RalphStatementsQuery)
      (items : List FSItem),
      (fs_query_statements parse p items).search_after =
        (if p.limit = 0 ∨ (effItems parse p items).length < p.limit then none
         else ((effItems parse p items).get? (p.limit - 1)).bind
           (fun it => it.statement.id))) := by
  refine ⟨fun parse p items => fs_query_statements_eq_spec parse p items, ?_⟩
  intro parse p items
  rw [fs_query_statements_eq_spec]
  unfold pageOf
  by_cases hc : p.limit = 0 ∨ (effItems parse p items).length < p.limit
  · rw [if_pos hc, if_pos hc]
  · rw [if_neg hc, if_neg hc]

/-- C7 counterexample: with `ascending = true` and limit 2 the cursor "b"
is the id of the first returned statement, not of the last one. -/
theorem fs_cursor_not_last_returned :
    (fs_query_statements (fun s => s.toInt?) { ascending := true, limit := 2 }
      [⟨sdocTs "a" "1", ⟨false⟩⟩, ⟨sdocTs "b" "3", ⟨false⟩⟩]) =
      ⟨[sdocTs "b" "3", sdocTs "a" "1"], some "b"⟩ ∧
    (sdocTs "a" "1").id = some "a" ∧ "b" ≠ "a" :=
  ⟨rfl, rfl, by decide⟩

end Ralph
